import Mathlib

/-!
# A verification development for the `tcp1` command-line TCP client

The C sources `src/tcp_client.c`, `src/tcp_client.h` and `src/main.c` are embedded
shallowly: every C function becomes a Lean function of the same name, the
operating system (`send`, `recv`, `socket`, `connect`, `close`, ...) becomes an
explicit environment record, and the library routines the code relies on
(`sprintf`, `strtol`, `atoi`, `getopt_long`) are modelled by executable
definitions.
-/

namespace TcpClient

/-! ## C strings and the outcome of running C code -/

/-- A C string: the bytes that precede the terminating NUL, each `char` as its
unsigned value, so that `strlen` is `List.length`. -/
abbrev CStr := List Nat

/-- The C string written as an ASCII literal. -/
def cstr (s : String) : CStr := s.toList.map Char.toNat

/-- The outcome of running a piece of C code: it completes with a value, its
behaviour is undefined (it wrote outside an object, dereferenced `NULL`, ...),
or the step budget of the model ran out before it completed. -/
inductive Exec (α : Type) where
  | done (a : α)
  | undefined
  | timeout
  deriving Repr, DecidableEq

def EXIT_SUCCESS : Int := 0
def EXIT_FAILURE : Int := 1

/-! ## `tcp_client.h` -/

def TCP_CLIENT_BAD_SOCKET : Int := -1
def TCP_CLIENT_DEFAULT_PORT : CStr := cstr "8080"
def TCP_CLIENT_DEFAULT_HOST : CStr := cstr "localhost"
def TCP_CLIENT_MAX_INPUT_SIZE : Nat := 1024

/-- The record `Config`; a `char *` member that may be `NULL` is an `Option`. -/
structure Config where
  port : Option CStr
  host : Option CStr
  action : Option CStr
  message : Option CStr
  deriving Repr, DecidableEq

/-! ## `sprintf` with the conversions `%s` and `%ld` -/

/-- The digits of `n` in base ten, most significant first, produced the way a
conversion loop does: one digit per division by ten, stopping at quotient 0. -/
def fmtDigits : Nat → Nat → List Nat → List Nat
  | 0, _, acc => acc
  | fuel + 1, n, acc =>
    if n / 10 = 0 then (48 + n % 10) :: acc
    else fmtDigits fuel (n / 10) ((48 + n % 10) :: acc)

/-- The conversion `%ld` of a `long`. -/
def fmt_ld (i : Int) : List Nat :=
  if i < 0 then 45 :: fmtDigits ((-i).toNat + 1) (-i).toNat []
  else fmtDigits (i.toNat + 1) i.toNat []

/-- A `size_t` read back as a `long` (two's complement, 64 bits), which is what
`%ld` does with the value of `strlen`. -/
def sizeAsLong (n : Nat) : Int :=
  if n % 2 ^ 64 < 2 ^ 63 then (n % 2 ^ 64 : Nat) else ((n % 2 ^ 64 : Nat) : Int) - 2 ^ 64

/-- An argument of a variadic `sprintf` call. -/
inductive FmtArg where
  | str (s : Option CStr)
  | size (n : Nat)
  deriving Repr, DecidableEq

/-- The text a format produces: `%s` copies a string argument, `%ld` prints an
integer argument, every other byte is copied. `none` is undefined behaviour
(a `NULL` string, a missing argument, a conversion outside this subset). -/
def formatText : List Nat → List FmtArg → Option CStr
  | [], _ => some []
  | 37 :: 115 :: fmt, FmtArg.str (some s) :: args =>
    (formatText fmt args).map (fun t => s ++ t)
  | 37 :: 108 :: 100 :: fmt, FmtArg.size n :: args =>
    (formatText fmt args).map (fun t => fmt_ld (sizeAsLong n) ++ t)
  | 37 :: _, _ => none
  | c :: fmt, args => (formatText fmt args).map (fun t => c :: t)

/-- The call `sprintf(buf, fmt, args...)` into a buffer of `cap` bytes: the
text and its terminating NUL must fit, otherwise the call writes past the
buffer. -/
def sprintf (cap : Nat) (fmt : List Nat) (args : List FmtArg) : Exec CStr :=
  match formatText fmt args with
  | none => Exec.undefined
  | some t => if t.length + 1 ≤ cap then Exec.done t else Exec.undefined

/-! ## The network, as seen by the client -/

/-- What one `recv` call reports: an error (`-1`) or the bytes it stored. -/
inductive RecvResult where
  | error
  | bytes (data : List Nat)
  deriving Repr, DecidableEq

/-- The return value of `recv`. -/
def RecvResult.ret : RecvResult → Int
  | RecvResult.error => -1
  | RecvResult.bytes d => d.length

/-- The bytes a `recv` call stored at its buffer argument. -/
def RecvResult.stored : RecvResult → List Nat
  | RecvResult.error => []
  | RecvResult.bytes d => d

/-- The operating system and the peer. `send k len` is the return value of the
`k`-th `send` call (counting from 0) when it is asked to transfer `len` bytes,
`recv k len` the result of the `k`-th `recv` call asked for at most `len`
bytes. -/
structure Net where
  socketRet : Int
  hostFound : Bool
  connectRet : Int
  send : Nat → Nat → Int
  recv : Nat → Nat → RecvResult
  closeRet : Int

/-! ## `tcp_client_send_request` -/

/-- One `send` call: the offset into `payload` of the pointer passed, the
length requested, and the value returned. -/
structure SendCall where
  offset : Nat
  len : Nat
  ret : Int
  deriving Repr, DecidableEq

/-- The bytes of `payload` a `send` call handed to the connection. -/
def SendCall.transferred (payload : CStr) (c : SendCall) : List Nat :=
  (payload.drop c.offset).take c.ret.toNat

/-- The variables of the send loop, with the calls made so far. -/
structure SendState where
  totalBytesSent : Int
  calls : List SendCall
  deriving Repr, DecidableEq

/-- The bytes handed to the connection, in call order. -/
def wire (payload : CStr) (calls : List SendCall) : List Nat :=
  (calls.map (SendCall.transferred payload)).flatten

/-- The loop `while (totalBytesSent < payloadLength)` of
`tcp_client_send_request`. Every call passes the pointer `payload` itself
(offset 0) and the length `payloadLength - totalBytesSent`. -/
def sendLoop (net : Net) (payloadLength : Int) : Nat → SendState → Exec (Int × SendState)
  | 0, st =>
    if st.totalBytesSent < payloadLength then Exec.timeout else Exec.done (EXIT_SUCCESS, st)
  | fuel + 1, st =>
    if st.totalBytesSent < payloadLength then
      let len := (payloadLength - st.totalBytesSent).toNat
      let bytesSent := net.send st.calls.length len
      let calls := st.calls ++ [{ offset := 0, len := len, ret := bytesSent }]
      if bytesSent = -1 then
        Exec.done (EXIT_FAILURE, { st with calls := calls })
      else
        sendLoop net payloadLength fuel
          { totalBytesSent := st.totalBytesSent + bytesSent, calls := calls }
    else Exec.done (EXIT_SUCCESS, st)

/-- The payload `tcp_client_send_request` formats into `payload[TCP_CLIENT_MAX_INPUT_SIZE]`. -/
def buildPayload (config : Config) : Exec CStr :=
  match config.message with
  | none => Exec.undefined
  | some message =>
    sprintf TCP_CLIENT_MAX_INPUT_SIZE (cstr "%s %ld %s")
      [FmtArg.str config.action, FmtArg.size message.length, FmtArg.str config.message]

/-- The function `tcp_client_send_request`: its return value and the `send`
calls it made. -/
def tcp_client_send_request (net : Net) (fuel : Nat) (config : Config) :
    Exec (Int × SendState) :=
  match buildPayload config with
  | Exec.done payload =>
    sendLoop net (payload.length : Int) fuel { totalBytesSent := 0, calls := [] }
  | Exec.undefined => Exec.undefined
  | Exec.timeout => Exec.timeout

/-! ## `tcp_client_receive_response` -/

/-- One `recv` call: the offset into `buf` of the pointer passed, the length
requested, and the result. -/
structure RecvCall where
  offset : Int
  len : Int
  result : RecvResult
  deriving Repr, DecidableEq

/-- The variables of the receive loop, the object `buf` points to, and the
`recv` calls made so far. -/
structure RecvState where
  bytesReceived : Int
  totalBytesReceived : Int
  buf : List Nat
  calls : List RecvCall
  deriving Repr, DecidableEq

/-- A store of `data` at offset `off` of the object `buf`; `none` when any
byte of it falls outside the object. -/
def storeAt (buf : List Nat) (off : Int) (data : List Nat) : Option (List Nat) :=
  if 0 ≤ off ∧ off.toNat + data.length ≤ buf.length then
    some (buf.take off.toNat ++ data ++ buf.drop (off.toNat + data.length))
  else none

/-- The loop `while (totalBytesReceived < buf_size)` of
`tcp_client_receive_response`. The first component of the result is
`some EXIT_FAILURE` when the function returned from inside the loop and `none`
when the loop was left, by its condition or by `break`. -/
def recvLoop (net : Net) (buf_size : Int) : Nat → RecvState → Exec (Option Int × RecvState)
  | 0, st =>
    if st.totalBytesReceived < buf_size then Exec.timeout else Exec.done (none, st)
  | fuel + 1, st =>
    if st.totalBytesReceived < buf_size then
      let len := buf_size - st.totalBytesReceived
      let r := net.recv st.calls.length len.toNat
      let calls := st.calls ++ [{ offset := st.totalBytesReceived, len := len, result := r }]
      match storeAt st.buf st.totalBytesReceived r.stored with
      | none => Exec.undefined
      | some buf =>
        let bytesReceived := r.ret
        if bytesReceived < 0 then
          Exec.done (some EXIT_FAILURE,
            { st with bytesReceived := bytesReceived, buf := buf, calls := calls })
        else if bytesReceived = 0 then
          Exec.done (none, { st with bytesReceived := bytesReceived, buf := buf, calls := calls })
        else
          recvLoop net buf_size fuel
            { bytesReceived := bytesReceived
              totalBytesReceived := st.totalBytesReceived + bytesReceived
              buf := buf
              calls := calls }
    else Exec.done (none, st)

/-- The function `tcp_client_receive_response` on the object `buf` with the
declared size `buf_size`: after the loop it stores the NUL at
`buf[totalBytesReceived]`. -/
def tcp_client_receive_response (net : Net) (fuel : Nat) (buf : List Nat) (buf_size : Int) :
    Exec (Int × RecvState) :=
  match recvLoop net buf_size fuel
      { bytesReceived := 0, totalBytesReceived := 0, buf := buf, calls := [] } with
  | Exec.done (some r, st) => Exec.done (r, st)
  | Exec.done (none, st) =>
    match storeAt st.buf st.totalBytesReceived [0] with
    | none => Exec.undefined
    | some b => Exec.done (EXIT_SUCCESS, { st with buf := b })
  | Exec.undefined => Exec.undefined
  | Exec.timeout => Exec.timeout

/-! ## `strtol` and `atoi` -/

/-- The C classification `isspace` in the "C" locale. -/
def isspace (c : Nat) : Bool := c = 32 || (9 ≤ c && c ≤ 13)

/-- The C classification `isdigit`. -/
def isdigit (c : Nat) : Bool := 48 ≤ c && c ≤ 57

def LONG_MAX : Int := 2 ^ 63 - 1
def LONG_MIN : Int := -(2 ^ 63)

/-- The digit loop of `strtol` in base 10: the magnitude read so far and the
unread rest of the string. -/
def strtolDigits : CStr → Nat → Nat × CStr
  | [], acc => (acc, [])
  | c :: cs, acc => if isdigit c then strtolDigits cs (10 * acc + (c - 48)) else (acc, c :: cs)

/-- The optional sign `strtol` accepts in front of the digits: whether it is
`-`, and the string after it. -/
def strtolSign : CStr → Bool × CStr
  | 45 :: t => (true, t)
  | 43 :: t => (false, t)
  | s => (false, s)

/-- The call `strtol(nptr, &endptr, 10)`: the value returned and the string
`endptr` points to. Leading white space and one sign are skipped; without a
digit nothing is converted and `endptr` is `nptr`; a value outside `long` is
clamped to `LONG_MIN` or `LONG_MAX`. -/
def strtol (nptr : CStr) : Int × CStr :=
  let signed := strtolSign (nptr.dropWhile isspace)
  match signed.2 with
  | [] => (0, nptr)
  | c :: _ =>
    if isdigit c then
      let r := strtolDigits signed.2 0
      (if signed.1 then max LONG_MIN (-(r.1 : Int)) else min LONG_MAX (r.1 : Int), r.2)
    else (0, nptr)

/-- The call `atoi(s)`, which is `(int) strtol(s, NULL, 10)`. -/
def atoi (s : CStr) : Int := ((strtol s).1 + 2 ^ 31) % 2 ^ 32 - 2 ^ 31

/-! ## `getopt_long` -/

/-- One return of `getopt_long`: the value returned and `optarg`. -/
structure GetoptReturn where
  opt : Int
  optarg : Option CStr
  deriving Repr, DecidableEq

/-- An entry of the `long_options` table: name, whether it takes an argument
(`required_argument`), and `val`; `flag` is `0` in every entry. -/
structure LongOption where
  name : CStr
  has_arg : Bool
  val : Int
  deriving Repr, DecidableEq

/-- What `strchr(optstring, c)` tells `getopt`: `none` when `c` is not an
option character (also for `:`), otherwise whether a `:` follows it. -/
def shortLookup (c : Nat) : CStr → Option Bool
  | [] => none
  | o :: os =>
    if o = c ∧ c ≠ 58 then
      (match os with
      | 58 :: _ => some true
      | _ => some false)
    else shortLookup c os

/-- The returns of `getopt_long` for the characters of one short-option
element (`-abc`), and whether the following element of `argv` was taken as
an option argument. -/
def shortCluster (optstring : CStr) (next : Option CStr) : List Nat → List GetoptReturn × Bool
  | [] => ([], false)
  | c :: cs =>
    match shortLookup c optstring with
    | none =>
      let r := shortCluster optstring next cs
      (⟨63, none⟩ :: r.1, r.2)
    | some false =>
      let r := shortCluster optstring next cs
      (⟨c, none⟩ :: r.1, r.2)
    | some true =>
      if cs ≠ [] then ([⟨c, some cs⟩], false)
      else
        match next with
        | some a => ([⟨c, some a⟩], true)
        | none => ([⟨63, none⟩], false)

/-- The bytes of a long-option element after `--`, split at the first `=`. -/
def splitAtEquals : List Nat → List Nat × Option (List Nat)
  | [] => ([], none)
  | c :: cs =>
    if c = 61 then ([], some cs)
    else
      let r := splitAtEquals cs
      (c :: r.1, r.2)

/-- The entry of the table a long-option name selects: an entry with exactly
this name, else the only entry the name abbreviates; `none` when there is no
such entry or the abbreviation is ambiguous (entries the name abbreviates
that differ in `val`, as any two entries of `long_options` do). -/
def findLongOption (table : List LongOption) (name : CStr) : Option LongOption :=
  match table.find? (fun o => o.name = name) with
  | some o => some o
  | none =>
    match table.filter (fun o => name.isPrefixOf o.name) with
    | [o] => some o
    | _ => none

/-- The return of `getopt_long` for one long-option element (`--name` or
`--name=value`), and whether the following element of `argv` was taken as the
option argument. -/
def longElement (table : List LongOption) (body : List Nat) (next : Option CStr) :
    GetoptReturn × Bool :=
  let nv := splitAtEquals body
  match findLongOption table nv.1 with
  | none => (⟨63, none⟩, false)
  | some o =>
    match nv.2 with
    | some value => if o.has_arg then (⟨o.val, some value⟩, false) else (⟨63, none⟩, false)
    | none =>
      if o.has_arg then
        match next with
        | some a => (⟨o.val, some a⟩, true)
        | none => (⟨63, none⟩, false)
      else (⟨o.val, none⟩, false)

/-- The returns of `getopt_long` for one option element of `argv` (an element
that starts with `-` and is neither `-` nor `--`). -/
def optionElement (optstring : CStr) (table : List LongOption) (body : List Nat)
    (next : Option CStr) : List GetoptReturn × Bool :=
  match body with
  | 45 :: name =>
    let r := longElement table name next
    ([r.1], r.2)
  | _ => shortCluster optstring next body

/-- Everything the calls of `getopt_long` yield for the elements of `argv`
after `argv[0]`: the successive returns before `-1`, and the operands, which
are the elements `argv[optind..argc)` once `-1` has been returned (GNU
`getopt` with `POSIXLY_CORRECT` unset moves the non-option elements behind
the options, keeping their order; `--` ends the options). -/
structure GetoptScan where
  returns : List GetoptReturn
  operands : List CStr
  deriving Repr, DecidableEq

/-- The scan of the elements `args` of `argv`, with the operands `ops` skipped
so far. -/
def getoptScan (optstring : CStr) (table : List LongOption) :
    List CStr → List CStr → GetoptScan
  | [], ops => ⟨[], ops⟩
  | [a], ops =>
    match a with
    | [45, 45] => ⟨[], ops⟩
    | 45 :: c :: body => ⟨(optionElement optstring table (c :: body) none).1, ops⟩
    | _ => ⟨[], ops ++ [a]⟩
  | a :: b :: rest, ops =>
    match a with
    | [45, 45] => ⟨[], ops ++ b :: rest⟩
    | 45 :: c :: body =>
      let r := optionElement optstring table (c :: body) (some b)
      let s := if r.2 then getoptScan optstring table rest ops
        else getoptScan optstring table (b :: rest) ops
      ⟨r.1 ++ s.returns, s.operands⟩
    | _ => getoptScan optstring table (b :: rest) (ops ++ [a])

/-! ## `tcp_client_parse_arguments` -/

def NUM_VALID_ACTIONS : Nat := 5

/-- The table `long_options`. -/
def long_options : List LongOption :=
  [⟨cstr "help", false, 0⟩, ⟨cstr "host", true, 104⟩, ⟨cstr "port", true, 112⟩, ⟨cstr "verbose", false, 118⟩]

/-- The table `validActions`. -/
def validActions : List CStr :=
  [cstr "uppercase", cstr "lowercase", cstr "reverse", cstr "shuffle", cstr "random"]

/-- How a call of `tcp_client_parse_arguments` ends: the process exits with
`EXIT_SUCCESS` after `--help`, or the function returns `ret` with the `Config`
it filled in and the value of `verbose_flag`, or its behaviour is undefined. -/
inductive ParseOutcome where
  | exitHelp
  | returned (ret : Int) (config : Config) (verbose : Bool)
  | undefined
  deriving Repr, DecidableEq

/-- The loop `for ( ; i < NUM_VALID_ACTIONS; i++) if (strcmp(...) == 0) break;`:
the value of `i` after it. -/
def actionIndex (action : CStr) : List CStr → Nat → Nat
  | [], i => i
  | v :: vs, i => if action = v then i else actionIndex action vs (i + 1)

/-- The part of `tcp_client_parse_arguments` after the option loop, on the
operands `argv[optind..argc)`. -/
def collectOperands (operands : List CStr) (config : Config) (verbose : Bool) : ParseOutcome :=
  match operands with
  | [] =>
    if config.action = none ∨ config.message = none then
      ParseOutcome.returned EXIT_FAILURE config verbose
    else ParseOutcome.returned EXIT_SUCCESS config verbose
  | a :: rest =>
    let config := { config with action := some a }
    if actionIndex a validActions 0 = NUM_VALID_ACTIONS then
      ParseOutcome.returned EXIT_FAILURE config verbose
    else
      match rest with
      | [] =>
        if config.action = none ∨ config.message = none then
          ParseOutcome.returned EXIT_FAILURE config verbose
        else ParseOutcome.returned EXIT_SUCCESS config verbose
      | m :: rest' =>
        let config := { config with message := some m }
        if config.action = none ∨ config.message = none then
          ParseOutcome.returned EXIT_FAILURE config verbose
        else if rest' ≠ [] then ParseOutcome.returned EXIT_FAILURE config verbose
        else ParseOutcome.returned EXIT_SUCCESS config verbose

/-- The loop `while ((opt = getopt_long(...)) != -1) switch (opt)` over the
returns of `getopt_long`, followed by the operand part. -/
def optionLoop (operands : List CStr) : List GetoptReturn → Config → Bool → ParseOutcome
  | [], config, verbose => collectOperands operands config verbose
  | r :: rs, config, verbose =>
    if r.opt = 0 then ParseOutcome.exitHelp
    else if r.opt = 104 then optionLoop operands rs { config with host := r.optarg } verbose
    else if r.opt = 112 then
      match r.optarg with
      | none => ParseOutcome.undefined
      | some optarg =>
        let port := (strtol optarg).1
        let endptr := (strtol optarg).2
        if endptr ≠ [] ∨ port ≤ 0 ∨ port > 65535 then
          ParseOutcome.returned EXIT_FAILURE config verbose
        else optionLoop operands rs { config with port := some optarg } verbose
    else if r.opt = 118 then optionLoop operands rs config true
    else ParseOutcome.returned EXIT_FAILURE config verbose

/-- What the calls `getopt_long(argc, argv, "h:p:v", long_options, &long_index)`
of `tcp_client_parse_arguments` yield on `argv`. -/
def commandLine (argv : List CStr) : GetoptScan :=
  getoptScan (cstr "h:p:v") long_options (argv.drop 1) []

/-- The function `tcp_client_parse_arguments(argc, argv, config)` with
`verbose_flag` initially 0. -/
def tcp_client_parse_arguments (argv : List CStr) (config : Config) : ParseOutcome :=
  optionLoop (commandLine argv).operands (commandLine argv).returns config false

/-! ## `tcp_client_connect`, `tcp_client_close` and `main` -/

/-- What a run of the program does that can be observed from outside, in
order: the help text, the system calls of `tcp_client_connect`, the calls of
the four socket functions of `tcp_client.h` with what they returned, and the
line printed on standard output. -/
inductive Event where
  | usage
  | sys_socket (ret : Int)
  | sys_gethostbyname (host : Option CStr)
  | sys_connect (sockfd : Int) (port : Int)
  | connectReturned (sockfd : Int)
  | sendReturned (sockfd : Int) (ret : Int)
  | receiveReturned (sockfd : Int) (ret : Int)
  | closeReturned (sockfd : Int) (ret : Int)
  | printed (line : List Nat)
  deriving Repr, DecidableEq

/-- The 16-bit port number `htons(atoi(port))` designates. -/
def portNumber (port : CStr) : Int := atoi port % 2 ^ 16

/-- The function `tcp_client_connect`: the value returned and the system calls
made. A `NULL` port handed to `atoi` is undefined behaviour. -/
def tcp_client_connect (net : Net) (config : Config) : Exec (Int × List Event) :=
  let sockfd := net.socketRet
  if sockfd < 0 then Exec.done (TCP_CLIENT_BAD_SOCKET, [Event.sys_socket sockfd])
  else if net.hostFound = false then
    Exec.done (TCP_CLIENT_BAD_SOCKET, [Event.sys_socket sockfd, Event.sys_gethostbyname config.host])
  else
    match config.port with
    | none => Exec.undefined
    | some port =>
      if net.connectRet < 0 then
        Exec.done (TCP_CLIENT_BAD_SOCKET, [Event.sys_socket sockfd, Event.sys_gethostbyname config.host, Event.sys_connect sockfd (portNumber port)])
      else
        Exec.done (sockfd, [Event.sys_socket sockfd, Event.sys_gethostbyname config.host, Event.sys_connect sockfd (portNumber port)])

/-- The function `tcp_client_close`. -/
def tcp_client_close (net : Net) (_sockfd : Int) : Int :=
  if net.closeRet < 0 then EXIT_FAILURE else EXIT_SUCCESS

/-- The `Config` that `main` initialises: default host and port, the other
members zero. -/
def initialConfig : Config :=
  { port := some TCP_CLIENT_DEFAULT_PORT, host := some TCP_CLIENT_DEFAULT_HOST, action := none, message := none }

/-- A finished run of the program: the exit status and what it did. -/
structure Run where
  exit : Int
  trace : List Event
  deriving Repr, DecidableEq

/-- The string `printf("%s\n", buf)` writes. -/
def printedLine (buf : List Nat) : List Nat := buf.takeWhile (fun c => c ≠ 0) ++ [10]

/-- The part of `main` after a successful `tcp_client_connect`. -/
def session (net : Net) (fuel : Nat) (config : Config) (sockfd : Int) (buf : List Nat) :
    Exec Run :=
  match tcp_client_send_request net fuel config with
  | Exec.undefined => Exec.undefined
  | Exec.timeout => Exec.timeout
  | Exec.done (sendRet, _) =>
    if sendRet ≠ 0 then
      Exec.done ⟨EXIT_FAILURE, [Event.sendReturned sockfd sendRet, Event.closeReturned sockfd (tcp_client_close net sockfd)]⟩
    else
      match tcp_client_receive_response net fuel buf (buf.length : Int) with
      | Exec.undefined => Exec.undefined
      | Exec.timeout => Exec.timeout
      | Exec.done (recvRet, st) =>
        if recvRet ≠ 0 then
          Exec.done ⟨EXIT_FAILURE, [Event.sendReturned sockfd sendRet, Event.receiveReturned sockfd recvRet, Event.closeReturned sockfd (tcp_client_close net sockfd)]⟩
        else if tcp_client_close net sockfd ≠ 0 then
          Exec.done ⟨EXIT_FAILURE, [Event.sendReturned sockfd sendRet, Event.receiveReturned sockfd recvRet, Event.printed (printedLine st.buf), Event.closeReturned sockfd (tcp_client_close net sockfd)]⟩
        else
          Exec.done ⟨EXIT_SUCCESS, [Event.sendReturned sockfd sendRet, Event.receiveReturned sockfd recvRet, Event.printed (printedLine st.buf), Event.closeReturned sockfd (tcp_client_close net sockfd)]⟩

/-- The function `main` on the argument vector `argv`; `stack i` is the
indeterminate initial value of `buf[i]`. -/
def main (net : Net) (fuel : Nat) (stack : Nat → Nat) (argv : List CStr) : Exec Run :=
  match tcp_client_parse_arguments argv initialConfig with
  | ParseOutcome.undefined => Exec.undefined
  | ParseOutcome.exitHelp => Exec.done ⟨EXIT_SUCCESS, [Event.usage]⟩
  | ParseOutcome.returned ret config _ =>
    if ret ≠ 0 then Exec.done ⟨EXIT_FAILURE, [Event.usage]⟩
    else
      match tcp_client_connect net config with
      | Exec.undefined => Exec.undefined
      | Exec.timeout => Exec.timeout
      | Exec.done (sockfd, calls) =>
        if sockfd = TCP_CLIENT_BAD_SOCKET then
          Exec.done ⟨EXIT_FAILURE, calls ++ [Event.connectReturned sockfd]⟩
        else
          match session net fuel config sockfd ((List.range TCP_CLIENT_MAX_INPUT_SIZE).map stack) with
          | Exec.undefined => Exec.undefined
          | Exec.timeout => Exec.timeout
          | Exec.done run => Exec.done ⟨run.exit, calls ++ Event.connectReturned sockfd :: run.trace⟩

/-! ## Specification-side notions -/

/-- The number a string of decimal digits denotes. -/
def decimalValue (ds : List Nat) : Nat :=
  ds.foldl (fun v d => 10 * v + (d - 48)) 0

/-- The string `ds` is the decimal numeral of `n` without padding: at least one
digit, only the digits `0`..`9`, no leading zero except for the numeral `0`
itself, and value `n`. -/
def IsUnpaddedDecimal (ds : List Nat) (n : Nat) : Prop :=
  ds ≠ [] ∧ (∀ d ∈ ds, 48 ≤ d ∧ d ≤ 57) ∧ (ds.head? = some 48 → ds = [48]) ∧
    decimalValue ds = n

/-- The event belongs to a connection attempt: a system call of
`tcp_client_connect` or its return. -/
def Event.isConnect : Event → Bool
  | Event.sys_socket _ => true
  | Event.sys_gethostbyname _ => true
  | Event.sys_connect _ _ => true
  | Event.connectReturned _ => true
  | _ => false

/-- The string is a decimal integer in `[1, 65535]`: one or more digits
`0`..`9` and nothing else, with a value in that range. -/
def IsDecimalPort (s : CStr) : Prop :=
  s ≠ [] ∧ (∀ c ∈ s, 48 ≤ c ∧ c ≤ 57) ∧ 1 ≤ decimalValue s ∧ decimalValue s ≤ 65535

/-- The string is a decimal integer in `[1, 65535]` that may be preceded by
white space (space, `\t`, `\n`, `\v`, `\f`, `\r`) and then by one `+`. -/
def IsSignedDecimalPort (s : CStr) : Prop :=
  ∃ ws sign ds, s = ws ++ sign ++ ds ∧ (∀ c ∈ ws, c = 32 ∨ (9 ≤ c ∧ c ≤ 13)) ∧
    (sign = [] ∨ sign = [43]) ∧ IsDecimalPort ds

/-- The test of `tcp_client_parse_arguments` on a port argument passes:
`*endptr == '\0'`, `port > 0` and `port <= 65535`. -/
def portAccepted (optarg : CStr) : Prop :=
  (strtol optarg).2 = [] ∧ 0 < (strtol optarg).1 ∧ (strtol optarg).1 ≤ 65535

/-- The option is one the parser accepts and goes on from: `-h`/`--host` with
its argument, `-v`/`--verbose`, or `-p`/`--port` with a decimal integer in
`[1, 65535]` that may be preceded by white space and one `+`. Every other
return of `getopt_long` but `--help` is rejected: an unrecognised or ambiguous
option, an option without its argument, a port not of that form. -/
def OptionAccepted (q : GetoptReturn) : Prop :=
  q.opt = 104 ∨ q.opt = 118 ∨ (q.opt = 112 ∧ ∃ s, q.optarg = some s ∧ IsSignedDecimalPort s)

/-- There is a `--help` among the options and every option `getopt_long` yields
before the first `--help` is accepted. -/
def HelpReachedFirst (rs : List GetoptReturn) : Prop :=
  ∃ pre r post, rs = pre ++ r :: post ∧ r.opt = 0 ∧ ∀ q ∈ pre, OptionAccepted q

/-- The send and the receive step of the run of `main` on `argv` return, with
success or with failure: once the parse has succeeded and
`tcp_client_connect` has returned a valid socket, `tcp_client_send_request`
returns, and if it returns success `tcp_client_receive_response` returns. -/
def StepsReturn (net : Net) (fuel : Nat) (stack : Nat → Nat) (argv : List CStr) : Prop :=
  ∀ config v sockfd calls,
    tcp_client_parse_arguments argv initialConfig = ParseOutcome.returned EXIT_SUCCESS config v →
    tcp_client_connect net config = Exec.done (sockfd, calls) →
    sockfd ≠ TCP_CLIENT_BAD_SOCKET →
    ∃ s sst, tcp_client_send_request net fuel config = Exec.done (s, sst) ∧
      (s = 0 → ∃ r rst, tcp_client_receive_response net fuel
        ((List.range TCP_CLIENT_MAX_INPUT_SIZE).map stack)
        (((List.range TCP_CLIENT_MAX_INPUT_SIZE).map stack).length : Int) = Exec.done (r, rst))

/-! ## Example environments -/

/-- A peer that takes 9 bytes from the first `send` and everything offered
from every later one, and closes without sending anything. -/
def partialSendNet : Net :=
  { socketRet := 3, hostFound := true, connectRet := 0, send := fun k len => if k = 0 then 9 else len, recv := fun _ _ => RecvResult.bytes [], closeRet := 0 }

/-- A peer that takes one byte per `send` and closes without sending anything. -/
def byteWiseNet : Net :=
  { socketRet := 3, hostFound := true, connectRet := 0, send := fun _ _ => 1, recv := fun _ _ => RecvResult.bytes [], closeRet := 0 }

/-- A peer that takes everything offered to `send` and fills every `recv`
request completely with the letter `A`, never closing. -/
def fillingNet : Net :=
  { socketRet := 3, hostFound := true, connectRet := 0, send := fun _ len => len, recv := fun _ len => RecvResult.bytes (List.replicate len 65), closeRet := 0 }

/-- A peer that takes everything offered to `send`, answers `HEL`, then `LO`,
and then closes. -/
def helloNet : Net :=
  { socketRet := 3, hostFound := true, connectRet := 0, send := fun _ len => len, recv := fun k _ => if k = 0 then RecvResult.bytes (cstr "HEL") else if k = 1 then RecvResult.bytes (cstr "LO") else RecvResult.bytes [], closeRet := 0 }

/-- A peer to which every `send` fails. -/
def brokenSendNet : Net :=
  { socketRet := 3, hostFound := true, connectRet := 0, send := fun _ _ => -1, recv := fun _ _ => RecvResult.bytes [], closeRet := 0 }

/-- A peer that takes everything offered to `send` and from which every
`recv` fails. -/
def brokenRecvNet : Net :=
  { socketRet := 3, hostFound := true, connectRet := 0, send := fun _ len => len, recv := fun _ _ => RecvResult.error, closeRet := 0 }

/-- A host that refuses the connection. -/
def refusingNet : Net :=
  { socketRet := 3, hostFound := true, connectRet := -1, send := fun _ len => len, recv := fun _ _ => RecvResult.bytes [], closeRet := 0 }

/-- A peer like `helloNet` on a system where `close` fails. -/
def brokenCloseNet : Net :=
  { socketRet := 3, hostFound := true, connectRet := 0, send := fun _ len => len, recv := fun k _ => if k = 0 then RecvResult.bytes (cstr "HELLO") else RecvResult.bytes [], closeRet := -1 }

/-- The configuration for action `uppercase` and message `hello`. -/
def helloConfig : Config :=
  { port := some TCP_CLIENT_DEFAULT_PORT, host := some TCP_CLIENT_DEFAULT_HOST, action := some (cstr "uppercase"), message := some (cstr "hello") }

/-- The command line `tcp_client uppercase hello`. -/
def helloArgv : List CStr := [cstr "tcp_client", cstr "uppercase", cstr "hello"]

/-- The run of `tcp_client uppercase hello` against `helloNet`. -/
def helloRun : Run :=
  ⟨0, [Event.sys_socket 3, Event.sys_gethostbyname (some (cstr "localhost")), Event.sys_connect 3 8080, Event.connectReturned 3, Event.sendReturned 3 0, Event.receiveReturned 3 0, Event.printed (cstr "HELLO\n"), Event.closeReturned 3 0]⟩

/-- The command line `tcp_client uppercase aaa...a` with a message of 1009 bytes. -/
def longArgv : List CStr := [cstr "tcp_client", cstr "uppercase", List.replicate 1009 97]

/-- The configuration `tcp_client_parse_arguments` fills in for `longArgv`. -/
def longConfig : Config :=
  { port := some TCP_CLIENT_DEFAULT_PORT, host := some TCP_CLIENT_DEFAULT_HOST, action := some (cstr "uppercase"), message := some (List.replicate 1009 97) }

/-- The command line `tcp_client -p PORT uppercase hello`. -/
def portArgv (port : CStr) : List CStr :=
  [cstr "tcp_client", cstr "-p", port, cstr "uppercase", cstr "hello"]

/-- The configuration for port `port`, action `uppercase` and message `hello`. -/
def portConfig (port : CStr) : Config :=
  { port := some port, host := some TCP_CLIENT_DEFAULT_HOST, action := some (cstr "uppercase"), message := some (cstr "hello") }

/-- The command line `tcp_client --help capitalize hello`. -/
def helpArgv : List CStr := [cstr "tcp_client", cstr "--help", cstr "capitalize", cstr "hello"]

/-- The command line `tcp_client capitalize hello`. -/
def capitalizeArgv : List CStr := [cstr "tcp_client", cstr "capitalize", cstr "hello"]

/-- The command line `tcp_client -p 0 --help uppercase hello`. -/
def portHelpArgv : List CStr :=
  [cstr "tcp_client", cstr "-p", cstr "0", cstr "--help", cstr "uppercase", cstr "hello"]

/-- The command line `tcp_client -x --help capitalize hello`. -/
def badOptionHelpArgv : List CStr :=
  [cstr "tcp_client", cstr "-x", cstr "--help", cstr "capitalize", cstr "hello"]

/-- The system calls of `tcp_client_connect` for `helloConfig` when `socket`
returns 3. -/
def helloConnectCalls : List Event :=
  [Event.sys_socket 3, Event.sys_gethostbyname (some (cstr "localhost")), Event.sys_connect 3 8080]

theorem decimalValue_append_single (ds : List Nat) (d : Nat) :
    decimalValue (ds ++ [d]) = 10 * decimalValue ds + (d - 48) := by
  simp [decimalValue, List.foldl_append]

/-- The conversion loop yields the unpadded numeral of `n` in front of `acc`. -/
theorem fmtDigits_spec (fuel : Nat) : ∀ (n : Nat) (acc : List Nat), n < fuel →
    ∃ ds, fmtDigits fuel n acc = ds ++ acc ∧ ds ≠ [] ∧ (∀ d ∈ ds, 48 ≤ d ∧ d ≤ 57) ∧
      (0 < n → ds.head? ≠ some 48) ∧ (n = 0 → ds = [48]) ∧ decimalValue ds = n := by
  induction fuel with
  | zero => intro n acc h; omega
  | succ fuel ih =>
    intro n acc hn
    unfold fmtDigits
    by_cases hq : n / 10 = 0
    · have hlt : n < 10 := by omega
      have hmod : n % 10 = n := Nat.mod_eq_of_lt hlt
      refine ⟨[48 + n % 10], by simp [hq], by simp, ?_, ?_, ?_, ?_⟩
      · intro d hd
        simp at hd
        omega
      · intro hpos
        simp
        omega
      · intro h0
        simp [h0]
      · simp [decimalValue, hmod]
    · have hlt : n / 10 < fuel := by omega
      obtain ⟨ds, heq, hne, hdig, hhead, _, hval⟩ := ih (n / 10) ((48 + n % 10) :: acc) hlt
      refine ⟨ds ++ [48 + n % 10], by simp [hq, heq], by simp, ?_, ?_, ?_, ?_⟩
      · intro d hd
        rcases List.mem_append.1 hd with h | h
        · exact hdig d h
        · simp at h
          omega
      · intro _
        have h1 := hhead (by omega)
        cases ds with
        | nil => exact absurd rfl hne
        | cons a t => simpa using h1
      · intro h0
        omega
      · rw [decimalValue_append_single, hval]
        omega

/-- The numeral `%ld` prints for a value below `2 ^ 63` is its unpadded decimal numeral. -/
theorem fmt_ld_size_spec (n : Nat) (h : n < 2 ^ 63) :
    IsUnpaddedDecimal (fmt_ld (sizeAsLong n)) n := by
  have hmod : n % 2 ^ 64 = n := Nat.mod_eq_of_lt (by omega)
  have hs : sizeAsLong n = (n : Int) := by
    unfold sizeAsLong
    rw [hmod]
    norm_num at h ⊢
    omega
  rw [hs]
  unfold fmt_ld
  have hneg : ¬ ((n : Int) < 0) := by omega
  rw [if_neg hneg, Int.toNat_ofNat]
  obtain ⟨ds, heq, hne, hdig, hhead, hzero, hval⟩ := fmtDigits_spec (n + 1) n [] (by omega)
  rw [heq, List.append_nil]
  refine ⟨hne, hdig, ?_, hval⟩
  intro h48
  rcases Nat.eq_zero_or_pos n with h0 | hpos
  · exact hzero h0
  · exact absurd h48 (hhead hpos)

theorem decimalValue_eq_zero : ∀ (xs : List Nat), (∀ y ∈ xs, 48 ≤ y) →
    decimalValue xs = 0 → ∀ y ∈ xs, y = 48 := by
  intro xs
  induction xs using List.reverseRecOn with
  | nil => intro _ _ y hy; simp at hy
  | append_singleton xs x ih =>
    intro hx hv y hy
    rw [decimalValue_append_single] at hv
    have hx1 := hx x (by simp)
    rcases List.mem_append.1 hy with h | h
    · exact ih (fun z hz => hx z (by simp [hz])) (by omega) y h
    · simp at h
      omega

/-- The digits in front of the last digit of an unpadded numeral with at least
two digits form an unpadded numeral of a positive number. -/
theorem IsUnpaddedDecimal_init (xs : List Nat) (x n : Nat)
    (h : IsUnpaddedDecimal (xs ++ [x]) n) (hne : xs ≠ []) :
    IsUnpaddedDecimal xs (decimalValue xs) ∧ 0 < decimalValue xs := by
  obtain ⟨_, hdig, hhead, _⟩ := h
  have hsub : ∀ y ∈ xs, 48 ≤ y ∧ y ≤ 57 := fun y hy => hdig y (by simp [hy])
  obtain ⟨a, t, rfl⟩ := List.exists_cons_of_ne_nil hne
  have ha : a ≠ 48 := by
    intro h48
    have := hhead (by simp [h48])
    simp at this
  refine ⟨⟨hne, hsub, ?_, rfl⟩, ?_⟩
  · intro h
    simp at h
    exact absurd h ha
  · rcases Nat.eq_zero_or_pos (decimalValue (a :: t)) with h0 | hpos
    · exact absurd (decimalValue_eq_zero _ (fun y hy => (hsub y hy).1) h0 a (by simp)) ha
    · exact hpos

/-- An unpadded decimal numeral is determined by its value. -/
theorem IsUnpaddedDecimal_unique : ∀ (ds es : List Nat) (n : Nat),
    IsUnpaddedDecimal ds n → IsUnpaddedDecimal es n → ds = es := by
  intro ds
  induction ds using List.reverseRecOn with
  | nil => intro es n h; exact absurd rfl h.1
  | append_singleton ds d ih =>
    intro es n hd he
    induction es using List.reverseRecOn with
    | nil => exact absurd rfl he.1
    | append_singleton es e _ =>
      have hdv := hd.2.2.2
      have hev := he.2.2.2
      rw [decimalValue_append_single] at hdv hev
      have hd1 := hd.2.1 d (by simp)
      have he1 := he.2.1 e (by simp)
      have hde : d = e := by omega
      have hv : decimalValue ds = decimalValue es := by omega
      subst hde
      by_cases hds : ds = []
      · by_cases hes : es = []
        · rw [hds, hes]
        · have hpos := (IsUnpaddedDecimal_init es d n he hes).2
          rw [hds] at hv
          simp [decimalValue] at hv
          simp [decimalValue] at hpos
          omega
      · by_cases hes : es = []
        · have hpos := (IsUnpaddedDecimal_init ds d n hd hds).2
          rw [hes] at hv
          simp [decimalValue] at hv
          simp [decimalValue] at hpos
          omega
        · have h1 := (IsUnpaddedDecimal_init ds d n hd hds).1
          have h2 := (IsUnpaddedDecimal_init es d n he hes).1
          rw [← hv] at h2
          rw [ih es (decimalValue ds) h1 h2]

theorem request_format_eq : cstr "%s %ld %s" = [37, 115, 32, 37, 108, 100, 32, 37, 115] := by
  decide

/-- The text formatted by `tcp_client_send_request`, before the capacity check. -/
theorem formatText_request (action message : CStr) :
    formatText (cstr "%s %ld %s")
        [FmtArg.str (some action), FmtArg.size message.length, FmtArg.str (some message)] =
      some (action ++ 32 :: (fmt_ld (sizeAsLong message.length) ++ 32 :: message)) := by
  rw [request_format_eq]
  simp [formatText]

theorem cstr_space : cstr " " = [32] := by decide

/-- C1: for an action `a` and a message `m` whose formatted request and its NUL fit
the 1024-byte payload buffer, the payload built by `tcp_client_send_request` is
exactly `a ++ " " ++ ds ++ " " ++ m`, where `ds` is the unpadded decimal numeral
of the byte length of `m`; nothing follows the message. -/
theorem payload_wire_format (action message ds : CStr) (port host : Option CStr)
    (hds : IsUnpaddedDecimal ds message.length)
    (hfit : action.length + 1 + ds.length + 1 + message.length + 1 ≤
      TCP_CLIENT_MAX_INPUT_SIZE) :
    buildPayload { port := port, host := host, action := some action, message := some message } =
      Exec.done (action ++ cstr " " ++ ds ++ cstr " " ++ message) := by
  have hlen : message.length < 2 ^ 63 := by
    have : TCP_CLIENT_MAX_INPUT_SIZE = 1024 := rfl
    omega
  have hcanon : fmt_ld (sizeAsLong message.length) = ds :=
    IsUnpaddedDecimal_unique _ _ _ (fmt_ld_size_spec _ hlen) hds
  have hfit2 : (action ++ 32 :: (ds ++ 32 :: message)).length + 1 ≤
      TCP_CLIENT_MAX_INPUT_SIZE := by
    simp only [List.length_append, List.length_cons]
    omega
  simp only [buildPayload, sprintf, formatText_request, hcanon, cstr_space]
  rw [if_pos hfit2]
  simp

/-- The example of the wire format: action `uppercase`, message `hello`. -/
theorem payload_wire_format_witness :
    buildPayload { port := none, host := none, action := some (cstr "uppercase"), message := some (cstr "hello") } =
      Exec.done (cstr "uppercase" ++ cstr " " ++ cstr "5" ++ cstr " " ++ cstr "hello") :=
  payload_wire_format (cstr "uppercase") (cstr "hello") (cstr "5") none none
    ⟨by decide, by decide, by decide, by decide⟩ (by decide)

/-! ### The send loop -/

theorem sum_take_le_sum : ∀ (l : List Int), (∀ x ∈ l, 0 ≤ x) → ∀ j, (l.take j).sum ≤ l.sum := by
  intro l
  induction l with
  | nil => intro _ j; simp
  | cons a t ih =>
    intro h j
    cases j with
    | zero =>
      have h1 : ∀ (m : List Int), (∀ x ∈ m, 0 ≤ x) → 0 ≤ m.sum := by
        intro m
        induction m with
        | nil => intro _; simp
        | cons b u ihu =>
          intro hm
          have := hm b (by simp)
          have := ihu (fun x hx => hm x (by simp [hx]))
          simp only [List.sum_cons]
          omega
      have := h1 (a :: t) h
      simpa using this
    | succ j =>
      have := ih (fun x hx => h x (by simp [hx])) j
      simp only [List.take_succ_cons, List.sum_cons]
      omega

/-- The send loop, started with `totalBytesSent` below the payload length and
enough steps, runs to completion when every `send` transfers between 1 and
the requested number of bytes; each call it makes asks `send` for what is
left and records what `send` returned. -/
theorem sendLoop_spec (net : Net) (L : Int)
    (hsend : ∀ k len, 0 < len → 1 ≤ net.send k len ∧ net.send k len ≤ (len : Int)) :
    ∀ (fuel : Nat) (st : SendState), 0 ≤ st.totalBytesSent → st.totalBytesSent ≤ L →
      (L - st.totalBytesSent).toNat ≤ fuel →
      ∃ ext, sendLoop net L fuel st =
          Exec.done (EXIT_SUCCESS, { totalBytesSent := L, calls := st.calls ++ ext }) ∧
        (ext.map SendCall.ret).sum = L - st.totalBytesSent ∧
        (∀ c ∈ ext, c.offset = 0 ∧ 1 ≤ c.ret ∧ c.ret ≤ (c.len : Int)) ∧
        ∀ j c, ext[j]? = some c →
          c.len = (L - (st.totalBytesSent + ((ext.take j).map SendCall.ret).sum)).toNat ∧
          c.ret = net.send (st.calls.length + j) c.len := by
  intro fuel
  induction fuel with
  | zero =>
    intro st h0 hL hf
    have hnot : ¬ st.totalBytesSent < L := by omega
    have heq : st.totalBytesSent = L := by omega
    refine ⟨[], ?_, ?_, ?_, ?_⟩
    · cases st
      simp only [sendLoop, if_neg hnot]
      simp_all
    · simp [heq]
    · intro c hc
      simp at hc
    · intro j c hc
      simp at hc
  | succ fuel ih =>
    intro st h0 hL hf
    by_cases hlt : st.totalBytesSent < L
    · have hlen : 0 < (L - st.totalBytesSent).toNat := by omega
      obtain ⟨h1, h2⟩ := hsend st.calls.length _ hlen
      have hne : net.send st.calls.length (L - st.totalBytesSent).toNat ≠ -1 := by omega
      have hcast : (((L - st.totalBytesSent).toNat : Nat) : Int) = L - st.totalBytesSent := by
        omega
      obtain ⟨ext, hrun, hsum, hall, hcalls⟩ := ih
        ⟨st.totalBytesSent + net.send st.calls.length (L - st.totalBytesSent).toNat,
          st.calls ++ [⟨0, (L - st.totalBytesSent).toNat,
            net.send st.calls.length (L - st.totalBytesSent).toNat⟩]⟩
        (by simp only; omega) (by simp only; omega) (by simp only; omega)
      refine ⟨⟨0, (L - st.totalBytesSent).toNat,
        net.send st.calls.length (L - st.totalBytesSent).toNat⟩ :: ext, ?_, ?_, ?_, ?_⟩
      · simp only [sendLoop, if_pos hlt, if_neg hne]
        rw [hrun]
        simp
      · simp only [List.map_cons, List.sum_cons]
        simp only at hsum
        omega
      · intro c hc
        rcases List.mem_cons.1 hc with h | h
        · subst h
          exact ⟨rfl, h1, h2⟩
        · exact hall c h
      · intro j c hc
        cases j with
        | zero =>
          simp only [List.getElem?_cons_zero, Option.some.injEq] at hc
          subst hc
          simp
        | succ j =>
          simp only [List.getElem?_cons_succ] at hc
          obtain ⟨hl, hr⟩ := hcalls j c hc
          simp only [List.length_append, List.length_cons, List.length_nil] at hl hr
          simp only [List.take_succ_cons, List.map_cons, List.sum_cons]
          constructor
          · rw [hl]
            congr 1
            omega
          · rw [hr]
            congr 1
            omega
    · have heq : st.totalBytesSent = L := by omega
      refine ⟨[], ?_, ?_, ?_, ?_⟩
      · cases st
        simp only [sendLoop, if_neg hlt]
        simp_all
      · simp [heq]
      · intro c hc
        simp at hc
      · intro j c hc
        simp at hc

/-- C3: when every `send` call transfers between 1 and the requested (remaining)
number of bytes, the send loop of `tcp_client_send_request` terminates within
`strlen(payload)` iterations and returns success. Its `j`-th call asks `send`
for the payload length minus the counts reported so far and records the count
`send` reports; these counts are each between 1 and the length requested, they
add up to the payload length exactly, and no partial sum of them exceeds it. -/
theorem send_request_completes (net : Net) (config : Config) (payload : CStr) (fuel : Nat)
    (hpayload : buildPayload config = Exec.done payload)
    (hsend : ∀ k len, 0 < len → 1 ≤ net.send k len ∧ net.send k len ≤ (len : Int))
    (hfuel : payload.length ≤ fuel) :
    ∃ st, tcp_client_send_request net fuel config = Exec.done (EXIT_SUCCESS, st) ∧
      st.totalBytesSent = payload.length ∧
      (∀ j c, st.calls[j]? = some c →
        c.len = ((payload.length : Int) - ((st.calls.take j).map SendCall.ret).sum).toNat ∧
        c.ret = net.send j c.len) ∧
      (st.calls.map SendCall.ret).sum = payload.length ∧
      (∀ c ∈ st.calls, 1 ≤ c.ret ∧ c.ret ≤ (c.len : Int)) ∧
      ∀ j, ((st.calls.take j).map SendCall.ret).sum ≤ payload.length := by
  obtain ⟨ext, hrun, hsum, hall, hcalls⟩ := sendLoop_spec net (payload.length : Int) hsend fuel
    { totalBytesSent := 0, calls := [] } (by simp) (by simp) (by simp; omega)
  refine ⟨_, by simp only [tcp_client_send_request, hpayload]; exact hrun, rfl, ?_, ?_, ?_, ?_⟩
  · intro j c hc
    simp only [List.nil_append] at hc ⊢
    have := hcalls j c hc
    simpa using this
  · simpa using hsum
  · intro c hc
    exact (hall c (by simpa using hc)).2
  · intro j
    have hnn : ∀ x ∈ ext.map SendCall.ret, 0 ≤ x := by
      intro x hx
      obtain ⟨c, hc, rfl⟩ := List.mem_map.1 hx
      have := (hall c hc).2.1
      omega
    have := sum_take_le_sum _ hnn j
    simp only [List.nil_append, ← List.map_take] at this ⊢
    simp only at hsum
    omega

/-- The hypotheses of `send_request_completes` hold for the request
`uppercase 5 hello` sent one byte per `send` call. -/
theorem send_request_completes_witness :
    ∃ st, tcp_client_send_request byteWiseNet 17 helloConfig = Exec.done (EXIT_SUCCESS, st) ∧
      st.totalBytesSent = (cstr "uppercase 5 hello").length ∧
      (∀ j c, st.calls[j]? = some c →
        c.len = (((cstr "uppercase 5 hello").length : Int) -
          ((st.calls.take j).map SendCall.ret).sum).toNat ∧
        c.ret = byteWiseNet.send j c.len) ∧
      (st.calls.map SendCall.ret).sum = (cstr "uppercase 5 hello").length ∧
      (∀ c ∈ st.calls, 1 ≤ c.ret ∧ c.ret ≤ (c.len : Int)) ∧
      ∀ j, ((st.calls.take j).map SendCall.ret).sum ≤ (cstr "uppercase 5 hello").length :=
  send_request_completes byteWiseNet helloConfig (cstr "uppercase 5 hello") 17 (by decide)
    (fun k len h => ⟨by simp [byteWiseNet], by simp [byteWiseNet]; omega⟩) (by decide)

/-- C2 (fails on the code): after a partial write the loop passes the pointer
`payload` again instead of `payload + totalBytesSent`. For the request
`uppercase 5 hello`, a first `send` that takes 9 bytes and a second that takes
the 8 bytes requested, the function returns success after handing
`uppercaseuppercas` to the connection, which is not the payload. -/
theorem send_request_resends_prefix :
    buildPayload helloConfig = Exec.done (cstr "uppercase 5 hello") ∧
      tcp_client_send_request partialSendNet 17 helloConfig =
        Exec.done (EXIT_SUCCESS, { totalBytesSent := 17, calls := [⟨0, 17, 9⟩, ⟨0, 8, 8⟩] }) ∧
      wire (cstr "uppercase 5 hello") [⟨0, 17, 9⟩, ⟨0, 8, 8⟩] = cstr "uppercaseuppercas" ∧
      cstr "uppercaseuppercas" ≠ cstr "uppercase 5 hello" := by
  decide

/-! ### The receive loop -/

theorem recvLoop_exit (net : Net) (N : Int) (fuel : Nat) (st : RecvState)
    (h : ¬ st.totalBytesReceived < N) : recvLoop net N fuel st = Exec.done (none, st) := by
  cases fuel <;> simp [recvLoop, h]

theorem storeAt_append (pre rest data : List Nat) (t : Nat) (hpre : pre.length = t)
    (hfit : data.length ≤ rest.length) :
    storeAt (pre ++ rest) (t : Int) data = some (pre ++ data ++ rest.drop data.length) := by
  have h1 : (0 : Int) ≤ (t : Int) ∧ ((t : Int)).toNat + data.length ≤ (pre ++ rest).length := by
    constructor
    · omega
    · simp only [Int.toNat_ofNat, List.length_append]
      omega
  unfold storeAt
  rw [if_pos h1]
  simp only [Int.toNat_ofNat]
  rw [List.take_left' hpre, ← List.drop_drop, List.drop_left' hpre]

/-- The receive loop on a peer that delivers the chunks `chunks` and then
reports end of stream, all of it fitting below the declared size. -/
theorem recvLoop_chunks (net : Net) (N : Nat) : ∀ (chunks : List (List Nat)) (fuel : Nat)
    (st : RecvState) (pre rest : List Nat),
    st.totalBytesReceived = (pre.length : Int) → st.buf = pre ++ rest →
    pre.length + rest.length = N → pre.length + chunks.flatten.length < N →
    (∀ c ∈ chunks, c ≠ []) →
    (∀ i c, chunks[i]? = some c →
      net.recv (st.calls.length + i) (N - (pre.length + (chunks.take i).flatten.length)) =
        RecvResult.bytes c) →
    net.recv (st.calls.length + chunks.length) (N - (pre.length + chunks.flatten.length)) =
      RecvResult.bytes [] →
    chunks.length + 1 ≤ fuel →
    ∃ st', recvLoop net (N : Int) fuel st = Exec.done (none, st') ∧
      st'.totalBytesReceived = ((pre.length + chunks.flatten.length : Nat) : Int) ∧
      st'.bytesReceived = 0 ∧
      st'.buf = pre ++ chunks.flatten ++ rest.drop chunks.flatten.length ∧
      st'.calls.map RecvCall.result =
        st.calls.map RecvCall.result ++ chunks.map RecvResult.bytes ++ [RecvResult.bytes []] := by
  intro chunks
  induction chunks with
  | nil =>
    intro fuel st pre rest htot hbuf hN hk _ _ heof hfuel
    obtain ⟨f, rfl⟩ : ∃ f, fuel = f + 1 := ⟨fuel - 1, by omega⟩
    obtain ⟨br, tot, b, calls⟩ := st
    simp only at htot hbuf heof
    subst htot hbuf
    simp only [List.flatten_nil, List.length_nil, Nat.add_zero] at hk heof
    have hlt : (pre.length : Int) < (N : Int) := by omega
    have hlen : ((N : Int) - (pre.length : Int)).toNat = N - pre.length := by omega
    have hst := storeAt_append pre rest [] pre.length rfl (by simp)
    simp only [recvLoop, if_pos hlt, hlen, heof, RecvResult.stored, RecvResult.ret, hst]
    refine ⟨_, rfl, ?_, ?_, ?_, ?_⟩ <;> simp
  | cons c cs ih =>
    intro fuel st pre rest htot hbuf hN hk hne hreads heof hfuel
    obtain ⟨f, rfl⟩ : ∃ f, fuel = f + 1 := ⟨fuel - 1, by simp at hfuel; omega⟩
    obtain ⟨br, tot, b, calls⟩ := st
    simp only at htot hbuf heof hreads
    subst htot hbuf
    simp only [List.flatten_cons, List.length_append, List.length_cons] at hk heof hfuel
    have hc : c ≠ [] := hne c (by simp)
    have hcpos : 0 < c.length := List.length_pos.2 hc
    have hlt : (pre.length : Int) < (N : Int) := by omega
    have hlen : ((N : Int) - (pre.length : Int)).toNat = N - pre.length := by omega
    have h0 := hreads 0 c (by simp)
    simp only [Nat.add_zero, List.take_zero, List.flatten_nil, List.length_nil] at h0
    have hst := storeAt_append pre rest c pre.length rfl (by omega)
    have hnotneg : ¬ ((c.length : Int) < 0) := by omega
    have hnotzero : ¬ ((c.length : Int) = 0) := by omega
    obtain ⟨st', hrun, htot', hbr', hbuf', hcalls'⟩ := ih f
      ⟨(c.length : Int), (pre.length : Int) + (c.length : Int), pre ++ c ++ rest.drop c.length,
        calls ++ [⟨(pre.length : Int), (N : Int) - (pre.length : Int), RecvResult.bytes c⟩]⟩
      (pre ++ c) (rest.drop c.length)
      (by simp only [List.length_append]; omega) rfl
      (by simp only [List.length_append, List.length_drop]; omega)
      (by simp only [List.length_append]; omega)
      (fun d hd => hne d (by simp [hd]))
      (by
        intro i d hd
        have := hreads (i + 1) d (by simpa using hd)
        simp only [List.take_succ_cons, List.flatten_cons, List.length_append] at this
        simp only [List.length_append, List.length_cons, List.length_nil]
        have e1 : calls.length + (0 + 1) + i = calls.length + (i + 1) := by omega
        have e2 : N - (pre.length + c.length + (List.take i cs).flatten.length) =
            N - (pre.length + (c.length + (List.take i cs).flatten.length)) := by omega
        rw [e1, e2]
        exact this)
      (by
        simp only [List.length_append, List.length_cons, List.length_nil]
        have e1 : calls.length + (0 + 1) + cs.length = calls.length + (cs.length + 1) := by
          omega
        have e2 : N - (pre.length + c.length + cs.flatten.length) =
            N - (pre.length + (c.length + cs.flatten.length)) := by omega
        rw [e1, e2]
        exact heof)
      (by omega)
    refine ⟨st', ?_, ?_, hbr', ?_, ?_⟩
    · simp only [recvLoop, if_pos hlt, hlen, h0, RecvResult.stored, RecvResult.ret,
        hst, if_neg hnotneg, if_neg hnotzero]
      rw [← hrun]
    · rw [htot']
      simp only [List.length_append, List.flatten_cons]
      congr 1
      omega
    · rw [hbuf']
      simp only [List.flatten_cons, List.length_append, List.append_assoc, List.drop_drop]
    · rw [hcalls']
      simp

/-- C5: when the peer delivers the non-empty chunks `chunks`, `k < N` bytes in
total, and the next `recv` reports zero bytes, `tcp_client_receive_response`
returns success (end of stream is not an error), its `recv` calls are exactly
those chunk reads followed by the one zero-byte read (none after it), and the
buffer holds the `k` delivered bytes in order followed by a NUL at offset `k`,
the rest of the buffer being untouched; `chunks = []` is the case `k = 0`. -/
theorem receive_stops_at_eof (net : Net) (buf : List Nat) (N : Nat)
    (chunks : List (List Nat)) (fuel : Nat)
    (hbuf : buf.length = N) (hne : ∀ c ∈ chunks, c ≠ [])
    (hk : chunks.flatten.length < N)
    (hreads : ∀ i c, chunks[i]? = some c →
      net.recv i (N - (chunks.take i).flatten.length) = RecvResult.bytes c)
    (heof : net.recv chunks.length (N - chunks.flatten.length) = RecvResult.bytes [])
    (hfuel : chunks.length + 1 ≤ fuel) :
    ∃ st, tcp_client_receive_response net fuel buf (N : Int) = Exec.done (EXIT_SUCCESS, st) ∧
      st.calls.map RecvCall.result = chunks.map RecvResult.bytes ++ [RecvResult.bytes []] ∧
      st.totalBytesReceived = (chunks.flatten.length : Int) ∧
      st.buf.take (chunks.flatten.length + 1) = chunks.flatten ++ [0] ∧
      st.buf.drop (chunks.flatten.length + 1) = buf.drop (chunks.flatten.length + 1) := by
  obtain ⟨st', hrun, htot', _, hbuf', hcalls'⟩ := recvLoop_chunks net N chunks fuel
    ⟨0, 0, buf, []⟩ [] buf rfl rfl (by simpa using hbuf) (by simpa using hk) hne
    (by simpa using hreads) (by simpa using heof) hfuel
  simp only [List.length_nil, Nat.zero_add, List.nil_append, List.map_nil] at htot' hbuf' hcalls'
  have hrest : ([0] : List Nat).length ≤ (buf.drop chunks.flatten.length).length := by
    simp only [List.length_drop, List.length_cons, List.length_nil]
    omega
  have hst := storeAt_append chunks.flatten (buf.drop chunks.flatten.length) [0]
    chunks.flatten.length rfl hrest
  simp only [tcp_client_receive_response, hrun, hbuf', htot', hst]
  refine ⟨_, rfl, hcalls', rfl, ?_, ?_⟩
  · simp only [List.append_assoc]
    rw [← List.append_assoc, List.take_left']
    simp
  · simp only [List.append_assoc]
    rw [← List.append_assoc, List.drop_left' (by simp)]
    simp [List.drop_drop, Nat.add_comm]

/-- The hypotheses of `receive_stops_at_eof` hold for a peer that sends `HEL`,
then `LO`, then closes, read into a buffer of 8 bytes. -/
theorem receive_stops_at_eof_witness :
    ∃ st, tcp_client_receive_response helloNet 3 (List.replicate 8 7) ((8 : Nat) : Int) =
        Exec.done (EXIT_SUCCESS, st) ∧
      st.calls.map RecvCall.result =
        [cstr "HEL", cstr "LO"].map RecvResult.bytes ++ [RecvResult.bytes []] ∧
      st.totalBytesReceived = (([cstr "HEL", cstr "LO"].flatten.length : Nat) : Int) ∧
      st.buf.take ([cstr "HEL", cstr "LO"].flatten.length + 1) =
        [cstr "HEL", cstr "LO"].flatten ++ [0] ∧
      st.buf.drop ([cstr "HEL", cstr "LO"].flatten.length + 1) =
        (List.replicate 8 7).drop ([cstr "HEL", cstr "LO"].flatten.length + 1) :=
  receive_stops_at_eof helloNet (List.replicate 8 7) 8 [cstr "HEL", cstr "LO"] 3
    (by decide) (by decide) (by decide)
    (by
      intro i c h
      match i, h with
      | 0, h => simp at h; subst h; rfl
      | 1, h => simp at h; subst h; rfl
      | i + 2, h => simp at h)
    (by decide) (by decide)

/-- When the first `recv` fills a buffer of declared size `N` completely, the
loop is left with `totalBytesReceived = N` and the store of the NUL at
`buf[N]` falls outside the object. -/
theorem receive_full_buffer (net : Net) (N : Nat) (buf data : List Nat) (fuel : Nat)
    (hN : 1 ≤ N) (hbuf : buf.length = N) (hdata : data.length = N)
    (hrecv : net.recv 0 N = RecvResult.bytes data) :
    recvLoop net (N : Int) (fuel + 1) ⟨0, 0, buf, []⟩ =
        Exec.done (none, ⟨(N : Int), (N : Int), data,
          [⟨0, (N : Int), RecvResult.bytes data⟩]⟩) ∧
      storeAt data (N : Int) [0] = none ∧
      tcp_client_receive_response net (fuel + 1) buf (N : Int) = Exec.undefined := by
  have hlt : (0 : Int) < (N : Int) := by omega
  have hst : storeAt buf 0 data = some data := by
    have := storeAt_append [] buf data 0 rfl (by omega)
    simp only [List.nil_append] at this
    rw [show ((0 : Nat) : Int) = 0 from rfl] at this
    rw [this, List.drop_eq_nil_of_le (by omega)]
    simp
  have hnotneg : ¬ ((data.length : Int) < 0) := by omega
  have hnotzero : ¬ ((data.length : Int) = 0) := by omega
  have hloop : recvLoop net (N : Int) (fuel + 1) ⟨0, 0, buf, []⟩ =
      Exec.done (none, ⟨(N : Int), (N : Int), data,
        [⟨0, (N : Int), RecvResult.bytes data⟩]⟩) := by
    simp only [recvLoop, if_pos hlt, Int.sub_zero, Int.toNat_ofNat, List.length_nil, hrecv,
      RecvResult.stored, RecvResult.ret, hst, if_neg hnotneg, if_neg hnotzero]
    rw [recvLoop_exit _ _ _ _ (by simp only; omega)]
    simp [hdata]
  have hnul : storeAt data (N : Int) [0] = none := by
    unfold storeAt
    rw [if_neg]
    simp only [Int.toNat_ofNat, List.length_cons, List.length_nil]
    omega
  refine ⟨hloop, hnul, ?_⟩
  simp only [tcp_client_receive_response, hloop, hnul]

/-- C4 (fails on the code): a peer that sends 1024 bytes without closing fills
the 1024-byte buffer of `main`; the loop of `tcp_client_receive_response` is
left with `totalBytesReceived = 1024` and the NUL is stored at `buf[1024]`,
one byte past the buffer. -/
theorem receive_terminator_out_of_bounds :
    recvLoop fillingNet ((1024 : Nat) : Int) 2 ⟨0, 0, List.replicate 1024 0, []⟩ =
        Exec.done (none, ⟨((1024 : Nat) : Int), ((1024 : Nat) : Int), List.replicate 1024 65,
          [⟨0, ((1024 : Nat) : Int), RecvResult.bytes (List.replicate 1024 65)⟩]⟩) ∧
      storeAt (List.replicate 1024 65) ((1024 : Nat) : Int) [0] = none ∧
      tcp_client_receive_response fillingNet 2 (List.replicate 1024 0) ((1024 : Nat) : Int) =
        Exec.undefined :=
  receive_full_buffer fillingNet 1024 (List.replicate 1024 0) (List.replicate 1024 65) 1
    (by omega) (List.length_replicate _ _) (List.length_replicate _ _) rfl

/-! ### The control flow of `main` -/

/-- The four ways the part of `main` after the connect can end, each with the
returns of the steps that lead to it. -/
theorem session_cases (net : Net) (fuel : Nat) (config : Config) (sockfd : Int)
    (buf : List Nat) (run : Run) (h : session net fuel config sockfd buf = Exec.done run) :
    (∃ s sst, tcp_client_send_request net fuel config = Exec.done (s, sst) ∧ s ≠ 0 ∧
      run = ⟨EXIT_FAILURE, [Event.sendReturned sockfd s, Event.closeReturned sockfd (tcp_client_close net sockfd)]⟩) ∨
    (∃ sst r rst, tcp_client_send_request net fuel config = Exec.done (0, sst) ∧
      tcp_client_receive_response net fuel buf (buf.length : Int) = Exec.done (r, rst) ∧ r ≠ 0 ∧
      run = ⟨EXIT_FAILURE, [Event.sendReturned sockfd 0, Event.receiveReturned sockfd r, Event.closeReturned sockfd (tcp_client_close net sockfd)]⟩) ∨
    (∃ sst rst, tcp_client_send_request net fuel config = Exec.done (0, sst) ∧
      tcp_client_receive_response net fuel buf (buf.length : Int) = Exec.done (0, rst) ∧
      tcp_client_close net sockfd ≠ 0 ∧
      run = ⟨EXIT_FAILURE, [Event.sendReturned sockfd 0, Event.receiveReturned sockfd 0, Event.printed (printedLine rst.buf), Event.closeReturned sockfd (tcp_client_close net sockfd)]⟩) ∨
    (∃ sst rst, tcp_client_send_request net fuel config = Exec.done (0, sst) ∧
      tcp_client_receive_response net fuel buf (buf.length : Int) = Exec.done (0, rst) ∧
      tcp_client_close net sockfd = 0 ∧
      run = ⟨EXIT_SUCCESS, [Event.sendReturned sockfd 0, Event.receiveReturned sockfd 0, Event.printed (printedLine rst.buf), Event.closeReturned sockfd 0]⟩) := by
  unfold session at h
  split at h
  · exact absurd h (by simp)
  · exact absurd h (by simp)
  · rename_i sendRet sst hsend
    split at h
    · rename_i hs
      left
      exact ⟨sendRet, sst, hsend, hs, by simpa using h.symm⟩
    · rename_i hs
      have hs0 : sendRet = 0 := not_not.1 hs
      subst hs0
      split at h
      · exact absurd h (by simp)
      · exact absurd h (by simp)
      · rename_i recvRet rst hrecv
        split at h
        · rename_i hr
          right; left
          exact ⟨sst, recvRet, rst, hsend, hrecv, hr, by simpa using h.symm⟩
        · rename_i hr
          have hr0 : recvRet = 0 := not_not.1 hr
          subst hr0
          split at h
          · rename_i hc
            right; right; left
            exact ⟨sst, rst, hsend, hrecv, hc, by simpa using h.symm⟩
          · rename_i hc
            have hc0 : tcp_client_close net sockfd = 0 := not_not.1 hc
            right; right; right
            refine ⟨sst, rst, hsend, hrecv, hc0, ?_⟩
            rw [hc0] at h
            simpa using h.symm

/-- The ways `main` can end: after `--help` or a rejected command line with
only the help text, after a failed connect, or after the session that
follows a successful connect. -/
theorem main_cases (net : Net) (fuel : Nat) (stack : Nat → Nat) (argv : List CStr) (run : Run)
    (h : main net fuel stack argv = Exec.done run) :
    (tcp_client_parse_arguments argv initialConfig = ParseOutcome.exitHelp ∧
      run = ⟨EXIT_SUCCESS, [Event.usage]⟩) ∨
    (∃ ret config v, tcp_client_parse_arguments argv initialConfig =
        ParseOutcome.returned ret config v ∧ ret ≠ 0 ∧ run = ⟨EXIT_FAILURE, [Event.usage]⟩) ∨
    (∃ config v calls, tcp_client_parse_arguments argv initialConfig =
        ParseOutcome.returned 0 config v ∧
      tcp_client_connect net config = Exec.done (TCP_CLIENT_BAD_SOCKET, calls) ∧
      run = ⟨EXIT_FAILURE, calls ++ [Event.connectReturned TCP_CLIENT_BAD_SOCKET]⟩) ∨
    (∃ config v sockfd calls srun, tcp_client_parse_arguments argv initialConfig =
        ParseOutcome.returned 0 config v ∧
      tcp_client_connect net config = Exec.done (sockfd, calls) ∧
      sockfd ≠ TCP_CLIENT_BAD_SOCKET ∧
      session net fuel config sockfd ((List.range TCP_CLIENT_MAX_INPUT_SIZE).map stack) =
        Exec.done srun ∧
      run = ⟨srun.exit, calls ++ Event.connectReturned sockfd :: srun.trace⟩) := by
  unfold main at h
  split at h
  · exact absurd h (by simp)
  · rename_i hp
    left
    exact ⟨hp, by simpa using h.symm⟩
  · rename_i ret config v hp
    split at h
    · rename_i hret
      right; left
      exact ⟨ret, config, v, hp, hret, by simpa using h.symm⟩
    · rename_i hret
      have hret0 : ret = 0 := not_not.1 hret
      subst hret0
      split at h
      · exact absurd h (by simp)
      · exact absurd h (by simp)
      · rename_i sockfd calls hc
        split at h
        · rename_i hbad
          subst hbad
          right; right; left
          exact ⟨config, v, calls, hp, hc, by simpa using h.symm⟩
        · rename_i hbad
          split at h
          · exact absurd h (by simp)
          · exact absurd h (by simp)
          · rename_i srun hs
            right; right; right
            exact ⟨config, v, sockfd, calls, srun, hp, hc, hbad, hs, by simpa using h.symm⟩

set_option maxRecDepth 100000 in
/-- The round trip of the specification: `tcp_client uppercase hello` against a
peer that answers `HELLO` prints `HELLO` and exits with status 0. -/
theorem main_hello : main helloNet 17 (fun _ => 0) helloArgv = Exec.done helloRun := by
  decide

/-! ### The command line -/

theorem findLongOption_mem (table : List LongOption) (name : CStr) (o : LongOption)
    (h : findLongOption table name = some o) : o ∈ table := by
  unfold findLongOption at h
  split at h
  · rename_i o' hfind
    simp only [Option.some.injEq] at h
    subst h
    exact List.mem_of_find?_eq_some hfind
  · split at h
    · rename_i o' hfilter
      simp only [Option.some.injEq] at h
      subst h
      have : o' ∈ table.filter (fun o => name.isPrefixOf o.name) := by
        rw [hfilter]
        simp
      exact (List.mem_filter.1 this).1
    · exact absurd h (by simp)

/-- A return of `getopt_long` for a long-option element that carries the value
of `--port` carries an option argument. -/
theorem longElement_optarg (body : List Nat) (next : Option CStr)
    (h : (longElement long_options body next).1.opt = 112) :
    (longElement long_options body next).1.optarg ≠ none := by
  unfold longElement at h ⊢
  simp only at h ⊢
  split
  · rename_i hfind
    simp [hfind] at h
  · rename_i o hfind
    have hmem := findLongOption_mem _ _ _ hfind
    simp only [hfind] at h
    split
    · rename_i value hv
      simp only [hv] at h
      split
      · simp
      · rename_i hna
        simp [hna] at h
    · rename_i hv
      simp only [hv] at h
      split
      · rename_i hha
        simp only [hha, if_true] at h
        split
        · simp
        · simp at h
      · rename_i hna
        simp only [hna] at h
        simp only [long_options, List.mem_cons, List.mem_singleton, List.not_mem_nil,
          or_false] at hmem
        rcases hmem with rfl | rfl | rfl | rfl <;> simp at hna h

theorem shortCluster_cons (o : CStr) (n : Option CStr) (c : Nat) (cs : List Nat) :
    shortCluster o n (c :: cs) =
      match shortLookup c o with
      | none => (⟨63, none⟩ :: (shortCluster o n cs).1, (shortCluster o n cs).2)
      | some false => (⟨c, none⟩ :: (shortCluster o n cs).1, (shortCluster o n cs).2)
      | some true =>
        if cs ≠ [] then ([⟨c, some cs⟩], false)
        else
          match n with
          | some a => ([⟨c, some a⟩], true)
          | none => ([⟨63, none⟩], false) := rfl

theorem shortLookup_port : shortLookup 112 (cstr "h:p:v") = some true := by decide

/-- A return of `getopt_long` for a short-option element that carries the
value of `-p` carries an option argument. -/
theorem shortCluster_optarg (next : Option CStr) : ∀ (cs : List Nat),
    ∀ r ∈ (shortCluster (cstr "h:p:v") next cs).1, r.opt = 112 → r.optarg ≠ none := by
  intro cs
  induction cs with
  | nil => intro r hr; simp [shortCluster] at hr
  | cons c cs ih =>
    intro r hr hopt
    rw [shortCluster_cons] at hr
    split at hr
    · simp only [List.mem_cons] at hr
      rcases hr with rfl | hr
      · simp at hopt
      · exact ih r hr hopt
    · rename_i hl
      simp only [List.mem_cons] at hr
      rcases hr with rfl | hr
      · simp only at hopt
        have hc : c = 112 := by omega
        rw [hc, shortLookup_port] at hl
        simp at hl
      · exact ih r hr hopt
    · split at hr
      · simp only [List.mem_singleton] at hr
        subst hr
        simp
      · split at hr
        · simp only [List.mem_singleton] at hr
          subst hr
          simp
        · simp only [List.mem_singleton] at hr
          subst hr
          simp at hopt

theorem optionElement_optarg (body : List Nat) (next : Option CStr) :
    ∀ r ∈ (optionElement (cstr "h:p:v") long_options body next).1,
      r.opt = 112 → r.optarg ≠ none := by
  intro r hr hopt
  unfold optionElement at hr
  split at hr
  · simp only [List.mem_singleton] at hr
    subst hr
    exact longElement_optarg _ _ hopt
  · exact shortCluster_optarg next body r hr hopt

/-- Every return of `getopt_long` with the value of `-p`/`--port` carries an
option argument. -/
theorem getoptScan_optarg (args ops : List CStr) :
    ∀ r ∈ (getoptScan (cstr "h:p:v") long_options args ops).returns,
      r.opt = 112 → r.optarg ≠ none := by
  induction args, ops using getoptScan.induct (cstr "h:p:v") long_options with
  | case1 ops => intro r hr; simp [getoptScan] at hr
  | case2 ops => intro r hr; simp [getoptScan] at hr
  | case3 ops c body hcb =>
    intro r hr
    rw [getoptScan] at hr
    · exact optionElement_optarg _ _ r hr
    · exact hcb
  | case4 a ops h1 h2 =>
    intro r hr
    rw [getoptScan] at hr
    · simp at hr
    · exact fun h => h1 h
    · exact fun c body h => h2 c body h
  | case5 b rest ops => intro r hr; simp [getoptScan] at hr
  | case6 b rest ops c body hcb ih1 ih2 =>
    intro r hr
    rw [getoptScan] at hr
    · simp only [List.mem_append] at hr
      rcases hr with hr | hr
      · exact optionElement_optarg _ _ r hr
      · split at hr
        · exact ih1 r hr
        · exact ih2 r hr
    · exact hcb
  | case7 a b rest ops h1 h2 ih =>
    intro r hr
    rw [getoptScan] at hr
    · exact ih r hr
    · exact fun h => h1 h
    · exact fun c body h => h2 c body h

/-! ### The port argument -/

theorem isspace_iff (c : Nat) : isspace c = true ↔ (c = 32 ∨ (9 ≤ c ∧ c ≤ 13)) := by
  simp [isspace]

theorem isdigit_iff (c : Nat) : isdigit c = true ↔ (48 ≤ c ∧ c ≤ 57) := by
  simp [isdigit]

theorem strtolDigits_all : ∀ (cs : CStr) (acc : Nat), (∀ c ∈ cs, 48 ≤ c ∧ c ≤ 57) →
    strtolDigits cs acc = (cs.foldl (fun v d => 10 * v + (d - 48)) acc, []) := by
  intro cs
  induction cs with
  | nil => intro acc _; rfl
  | cons c cs ih =>
    intro acc h
    have hc : isdigit c = true := (isdigit_iff c).2 (h c (by simp))
    simp only [strtolDigits, hc, if_true, List.foldl_cons]
    exact ih _ (fun d hd => h d (by simp [hd]))

theorem strtolDigits_rest_nil : ∀ (cs : CStr) (acc : Nat), (strtolDigits cs acc).2 = [] →
    ∀ c ∈ cs, 48 ≤ c ∧ c ≤ 57 := by
  intro cs
  induction cs with
  | nil => intro _ _ c hc; simp at hc
  | cons c cs ih =>
    intro acc h d hd
    by_cases hc : isdigit c = true
    · simp only [strtolDigits, hc, if_true] at h
      rcases List.mem_cons.1 hd with rfl | hd
      · exact (isdigit_iff _).1 hc
      · exact ih _ h d hd
    · simp [strtolDigits, hc] at h

theorem dropWhile_isspace_append : ∀ (ws t : CStr), (∀ c ∈ ws, isspace c = true) →
    (∀ c, t.head? = some c → isspace c = false) → (ws ++ t).dropWhile isspace = t := by
  intro ws
  induction ws with
  | nil =>
    intro t _ ht
    cases t with
    | nil => rfl
    | cons c t => simp [List.dropWhile, ht c (by simp)]
  | cons w ws ih =>
    intro t hws ht
    simp only [List.cons_append, List.dropWhile, hws w (by simp)]
    exact ih t (fun c hc => hws c (by simp [hc])) ht

/-- The value and the rest `strtol` yields for digits behind an optional `+`. -/
theorem strtol_of_digits (ws sign ds : CStr) (hws : ∀ c ∈ ws, c = 32 ∨ (9 ≤ c ∧ c ≤ 13))
    (hsign : sign = [] ∨ sign = [43]) (hne : ds ≠ []) (hds : ∀ c ∈ ds, 48 ≤ c ∧ c ≤ 57) :
    strtol (ws ++ sign ++ ds) = (min LONG_MAX (decimalValue ds : Int), []) := by
  obtain ⟨d, ds', rfl⟩ := List.exists_cons_of_ne_nil hne
  have hd := hds d (by simp)
  have hdig : isdigit d = true := (isdigit_iff d).2 hd
  have hdrop : (ws ++ sign ++ d :: ds').dropWhile isspace = sign ++ d :: ds' := by
    rw [List.append_assoc]
    apply dropWhile_isspace_append
    · exact fun c hc => (isspace_iff c).2 (hws c hc)
    · intro c hc
      rcases hsign with rfl | rfl
      · simp only [List.nil_append, List.head?_cons, Option.some.injEq] at hc
        subst hc
        simp [isspace]
        omega
      · simp only [List.singleton_append, List.head?_cons, Option.some.injEq] at hc
        subst hc
        decide
  have hsgn : strtolSign (sign ++ d :: ds') = (false, d :: ds') := by
    rcases hsign with rfl | rfl
    · simp only [List.nil_append]
      unfold strtolSign
      split
      · rename_i h; simp only [List.cons.injEq] at h; omega
      · rename_i h; simp only [List.cons.injEq] at h; omega
      · rfl
    · rfl
  unfold strtol
  simp only [hdrop, hsgn, hdig, if_true]
  rw [strtolDigits_all _ _ hds]
  simp [decimalValue]

theorem strtolSign_cases (t : CStr) :
    (∃ u, t = 45 :: u ∧ strtolSign t = (true, u)) ∨
    (∃ u, t = 43 :: u ∧ strtolSign t = (false, u)) ∨ strtolSign t = (false, t) := by
  unfold strtolSign
  split
  · exact Or.inl ⟨_, rfl, rfl⟩
  · exact Or.inr (Or.inl ⟨_, rfl, rfl⟩)
  · exact Or.inr (Or.inr rfl)

/-- What passing the port test says about the string behind the white space
and the sign. -/
theorem portAccepted_core (s : CStr) (neg : Bool) (u : CStr)
    (hs : strtolSign (s.dropWhile isspace) = (neg, u)) (hacc : portAccepted s) :
    neg = false ∧ IsDecimalPort u := by
  unfold portAccepted strtol at hacc
  simp only [hs] at hacc
  cases u with
  | nil => simp at hacc
  | cons c u' =>
    by_cases hd : isdigit c = true
    · simp only [hd, if_true] at hacc
      obtain ⟨hrest, hpos, hle⟩ := hacc
      have hall := strtolDigits_rest_nil _ _ hrest
      rw [strtolDigits_all _ _ hall] at hpos hle
      have hval : List.foldl (fun v d => 10 * v + (d - 48)) 0 (c :: u') = decimalValue (c :: u') :=
        rfl
      rw [hval] at hpos hle
      have hmax : LONG_MAX = 9223372036854775807 := by norm_num [LONG_MAX]
      have hmin : LONG_MIN = -9223372036854775808 := by norm_num [LONG_MIN]
      cases neg with
      | true =>
        simp only [if_true, hmin] at hpos
        omega
      | false =>
        simp only [Bool.false_eq_true, if_false, hmax] at hpos hle
        refine ⟨by simp, by simp, hall, ?_, ?_⟩ <;> omega
    · simp [hd] at hacc

/-- The port test of `tcp_client_parse_arguments` passes exactly for the decimal
integers in `[1, 65535]` with optional leading white space and optional `+`. -/
theorem portAccepted_iff (s : CStr) : portAccepted s ↔ IsSignedDecimalPort s := by
  constructor
  · intro hacc
    have hsplit : s = s.takeWhile isspace ++ s.dropWhile isspace :=
      (List.takeWhile_append_dropWhile _ _).symm
    have hws : ∀ c ∈ s.takeWhile isspace, c = 32 ∨ (9 ≤ c ∧ c ≤ 13) :=
      fun c hc => (isspace_iff c).1 (List.mem_takeWhile_imp hc)
    rcases strtolSign_cases (s.dropWhile isspace) with ⟨u, ht, hs⟩ | ⟨u, ht, hs⟩ | hs
    · exact absurd (portAccepted_core s true u hs hacc).1 (by simp)
    · refine ⟨s.takeWhile isspace, [43], u, ?_, hws, Or.inr rfl,
        (portAccepted_core s false u hs hacc).2⟩
      rw [List.append_assoc, List.singleton_append, ← ht]
      exact hsplit
    · refine ⟨s.takeWhile isspace, [], s.dropWhile isspace, ?_, hws, Or.inl rfl,
        (portAccepted_core s false _ hs hacc).2⟩
      rw [List.append_nil]
      exact hsplit
  · rintro ⟨ws, sign, ds, rfl, hws, hsign, hne, hds, h1, h2⟩
    unfold portAccepted
    rw [strtol_of_digits ws sign ds hws hsign hne hds]
    have hmax : LONG_MAX = 9223372036854775807 := by norm_num [LONG_MAX]
    simp only [hmax]
    refine ⟨trivial, ?_, ?_⟩ <;> omega

/-! ### The option loop and the operands -/

theorem actionIndex_spec (a : CStr) : ∀ (vs : List CStr) (i : Nat),
    (a ∈ vs → actionIndex a vs i < i + vs.length) ∧
    (a ∉ vs → actionIndex a vs i = i + vs.length) := by
  intro vs
  induction vs with
  | nil => intro i; simp [actionIndex]
  | cons v vs ih =>
    intro i
    by_cases hav : a = v
    · subst hav
      simp [actionIndex]
    · obtain ⟨h1, h2⟩ := ih (i + 1)
      simp only [actionIndex, if_neg hav, List.mem_cons, List.length_cons]
      constructor
      · intro h
        rcases h with h | h
        · exact absurd h hav
        · have := h1 h
          omega
      · intro h
        have := h2 (fun hm => h (Or.inr hm))
        omega

/-- The loop over `validActions` ends with `i == NUM_VALID_ACTIONS` exactly for
the strings that are not in the table. -/
theorem actionIndex_validActions (a : CStr) :
    actionIndex a validActions 0 = NUM_VALID_ACTIONS ↔ a ∉ validActions := by
  obtain ⟨h1, h2⟩ := actionIndex_spec a validActions 0
  have hlen : validActions.length = 5 := rfl
  have hnum : NUM_VALID_ACTIONS = 5 := rfl
  constructor
  · intro h hm
    have := h1 hm
    omega
  · intro h
    have := h2 h
    omega

/-- The operand part returns `EXIT_SUCCESS` or `EXIT_FAILURE`. -/
theorem collectOperands_returns (ops : List CStr) (config : Config) (v : Bool) :
    ∃ ret config', collectOperands ops config v = ParseOutcome.returned ret config' v ∧
      (ret = EXIT_SUCCESS ∨ ret = EXIT_FAILURE) := by
  unfold collectOperands
  split
  · split
    · exact ⟨_, _, rfl, Or.inr rfl⟩
    · exact ⟨_, _, rfl, Or.inl rfl⟩
  · simp only
    split
    · exact ⟨_, _, rfl, Or.inr rfl⟩
    · split
      · split
        · exact ⟨_, _, rfl, Or.inr rfl⟩
        · exact ⟨_, _, rfl, Or.inl rfl⟩
      · split
        · exact ⟨_, _, rfl, Or.inr rfl⟩
        · split
          · exact ⟨_, _, rfl, Or.inr rfl⟩
          · exact ⟨_, _, rfl, Or.inl rfl⟩

/-- The operand part succeeds, from a `Config` without action and message, only on exactly
two operands of which the first is in `validActions`; they become the action
and the message. -/
theorem collectOperands_success (ops : List CStr) (config config' : Config) (v v' : Bool)
    (hact : config.action = none) (hmsg : config.message = none)
    (h : collectOperands ops config v = ParseOutcome.returned EXIT_SUCCESS config' v') :
    ∃ a m, ops = [a, m] ∧ a ∈ validActions ∧ config'.action = some a ∧
      config'.message = some m ∧ config'.port = config.port := by
  have hne : EXIT_FAILURE ≠ EXIT_SUCCESS := by decide
  unfold collectOperands at h
  split at h
  · simp [hact, hne] at h
  · rename_i a rest
    simp only at h
    split at h
    · simp [hne] at h
    · rename_i hidx
      have hmem : a ∈ validActions := by
        by_contra hn
        exact hidx ((actionIndex_validActions a).2 hn)
      split at h
      · simp [hmsg, hne] at h
      · rename_i m rest'
        split at h
        · simp [hne] at h
        · split at h
          · simp [hne] at h
          · rename_i hrest
            have hr : rest' = [] := not_not.1 hrest
            subst hr
            simp only [ParseOutcome.returned.injEq] at h
            obtain ⟨_, rfl, _⟩ := h
            exact ⟨a, m, rfl, hmem, rfl, rfl, rfl⟩

/-- A successful option loop met no `--help`, passed the port test on every
`-p`/`--port` argument, and left action and message to the operand part. -/
theorem optionLoop_success (ops : List CStr) : ∀ (rs : List GetoptReturn) (config : Config)
    (v : Bool) (config' : Config) (v' : Bool),
    optionLoop ops rs config v = ParseOutcome.returned EXIT_SUCCESS config' v' →
    (∀ r ∈ rs, r.opt = 112 → ∃ s, r.optarg = some s ∧ portAccepted s) ∧
    ∃ config1 v1, collectOperands ops config1 v1 = ParseOutcome.returned EXIT_SUCCESS config' v' ∧
      config1.action = config.action ∧ config1.message = config.message ∧
      (config1.port = config.port ∨ ∃ s, config1.port = some s ∧ portAccepted s) := by
  have hne : EXIT_FAILURE ≠ EXIT_SUCCESS := by decide
  intro rs
  induction rs with
  | nil =>
    intro config v config' v' h
    exact ⟨by simp, config, v, h, rfl, rfl, Or.inl rfl⟩
  | cons r rs ih =>
    intro config v config' v' h
    simp only [optionLoop] at h
    split at h
    · exact absurd h (by simp)
    · rename_i h0
      split at h
      · rename_i h104
        obtain ⟨hports, c1, v1, hc, ha, hm, hp⟩ := ih _ _ _ _ h
        refine ⟨?_, c1, v1, hc, ha, hm, hp⟩
        intro r' hr' hopt
        rcases List.mem_cons.1 hr' with rfl | hr'
        · omega
        · exact hports r' hr' hopt
      · rename_i h104
        split at h
        · rename_i h112
          split at h
          · exact absurd h (by simp)
          · rename_i optarg harg
            split at h
            · simp [hne] at h
            · rename_i hcond
              have hacc : portAccepted optarg := by
                unfold portAccepted
                simp only [ne_eq, not_or, not_not, not_le, not_lt] at hcond
                exact ⟨hcond.1, hcond.2.1, hcond.2.2⟩
              obtain ⟨hports, c1, v1, hc, ha, hm, hp⟩ := ih _ _ _ _ h
              refine ⟨?_, c1, v1, hc, ha, hm, ?_⟩
              · intro r' hr' hopt
                rcases List.mem_cons.1 hr' with rfl | hr'
                · exact ⟨optarg, harg, hacc⟩
                · exact hports r' hr' hopt
              · rcases hp with hp | hp
                · exact Or.inr ⟨optarg, hp, hacc⟩
                · exact Or.inr hp
        · rename_i h112
          split at h
          · obtain ⟨hports, c1, v1, hc, ha, hm, hp⟩ := ih _ _ _ _ h
            refine ⟨?_, c1, v1, hc, ha, hm, hp⟩
            intro r' hr' hopt
            rcases List.mem_cons.1 hr' with rfl | hr'
            · exact absurd hopt h112
            · exact hports r' hr' hopt
          · simp [hne] at h

/-- The option loop ends in the exit after `--help`, which takes a `--help`
among the options, or in a return of `EXIT_SUCCESS` or `EXIT_FAILURE`. -/
theorem optionLoop_outcome (ops : List CStr) : ∀ (rs : List GetoptReturn) (config : Config)
    (v : Bool), (∀ r ∈ rs, r.opt = 112 → r.optarg ≠ none) →
    (optionLoop ops rs config v = ParseOutcome.exitHelp ∧ ∃ r ∈ rs, r.opt = 0) ∨
    ∃ ret config' v', optionLoop ops rs config v = ParseOutcome.returned ret config' v' ∧
      (ret = EXIT_SUCCESS ∨ ret = EXIT_FAILURE) := by
  intro rs
  induction rs with
  | nil =>
    intro config v _
    obtain ⟨ret, c', h, hret⟩ := collectOperands_returns ops config v
    exact Or.inr ⟨ret, c', v, h, hret⟩
  | cons r rs ih =>
    intro config v harg
    have harg' : ∀ r' ∈ rs, r'.opt = 112 → r'.optarg ≠ none :=
      fun r' hr' => harg r' (by simp [hr'])
    have lift : ∀ (config1 : Config) (v1 : Bool),
        (optionLoop ops rs config1 v1 = ParseOutcome.exitHelp ∧ ∃ r' ∈ rs, r'.opt = 0) ∨
          (∃ ret config' v', optionLoop ops rs config1 v1 =
            ParseOutcome.returned ret config' v' ∧ (ret = EXIT_SUCCESS ∨ ret = EXIT_FAILURE)) →
        (optionLoop ops rs config1 v1 = ParseOutcome.exitHelp ∧ ∃ r' ∈ r :: rs, r'.opt = 0) ∨
          (∃ ret config' v', optionLoop ops rs config1 v1 =
            ParseOutcome.returned ret config' v' ∧ (ret = EXIT_SUCCESS ∨ ret = EXIT_FAILURE)) := by
      intro config1 v1 h
      rcases h with ⟨h1, r', hr', h0⟩ | h
      · exact Or.inl ⟨h1, r', by simp [hr'], h0⟩
      · exact Or.inr h
    simp only [optionLoop]
    split
    · rename_i h0
      exact Or.inl ⟨rfl, r, by simp, h0⟩
    · split
      · exact lift _ _ (ih _ _ harg')
      · split
        · rename_i h112
          split
          · rename_i hnone
            exact absurd hnone (harg r (by simp) h112)
          · split
            · exact Or.inr ⟨_, _, _, rfl, Or.inr rfl⟩
            · exact lift _ _ (ih _ _ harg')
        · split
          · exact lift _ _ (ih _ _ harg')
          · exact Or.inr ⟨_, _, _, rfl, Or.inr rfl⟩

theorem helpReachedFirst_nil : ¬ HelpReachedFirst [] := by
  rintro ⟨pre, r, post, h, _⟩
  simp at h

theorem helpReachedFirst_cons (r : GetoptReturn) (rs : List GetoptReturn) (h0 : r.opt ≠ 0) :
    HelpReachedFirst (r :: rs) ↔ OptionAccepted r ∧ HelpReachedFirst rs := by
  constructor
  · rintro ⟨pre, q, post, heq, hq, hpre⟩
    cases pre with
    | nil =>
      simp only [List.nil_append, List.cons.injEq] at heq
      obtain ⟨rfl, _⟩ := heq
      exact absurd hq h0
    | cons p pre' =>
      simp only [List.cons_append, List.cons.injEq] at heq
      obtain ⟨rfl, rfl⟩ := heq
      exact ⟨hpre r (by simp), pre', q, post, rfl, hq, fun x hx => hpre x (by simp [hx])⟩
  · rintro ⟨hacc, pre, q, post, rfl, hq, hpre⟩
    refine ⟨r :: pre, q, post, rfl, hq, ?_⟩
    intro x hx
    rcases List.mem_cons.1 hx with rfl | hx
    · exact hacc
    · exact hpre x hx

/-- The option loop ends in the exit after `--help` exactly when `--help` is
reached before any rejected option. -/
theorem optionLoop_exitHelp_iff (ops : List CStr) : ∀ (rs : List GetoptReturn)
    (config : Config) (v : Bool),
    optionLoop ops rs config v = ParseOutcome.exitHelp ↔ HelpReachedFirst rs := by
  intro rs
  induction rs with
  | nil =>
    intro config v
    obtain ⟨ret, c', h, _⟩ := collectOperands_returns ops config v
    simp only [optionLoop, h]
    constructor
    · intro hcontra
      exact absurd hcontra (by simp)
    · intro hcontra
      exact absurd hcontra helpReachedFirst_nil
  | cons r rs ih =>
    intro config v
    by_cases h0 : r.opt = 0
    · simp only [optionLoop, if_pos h0, true_iff]
      exact ⟨[], r, rs, rfl, h0, by simp⟩
    · rw [helpReachedFirst_cons r rs h0]
      simp only [optionLoop, if_neg h0]
      by_cases h104 : r.opt = 104
      · simp only [if_pos h104]
        rw [ih]
        exact ⟨fun h => ⟨Or.inl h104, h⟩, fun h => h.2⟩
      · simp only [if_neg h104]
        by_cases h112 : r.opt = 112
        · simp only [if_pos h112]
          cases harg : r.optarg with
          | none =>
            simp only
            constructor
            · intro hcontra
              exact absurd hcontra (by simp)
            · rintro ⟨hacc | hacc | ⟨_, s, hs, _⟩, _⟩
              · exact absurd hacc h104
              · omega
              · rw [harg] at hs
                exact absurd hs (by simp)
          | some optarg =>
            simp only
            by_cases hcond : (strtol optarg).2 ≠ [] ∨ (strtol optarg).1 ≤ 0 ∨
                (strtol optarg).1 > 65535
            · simp only [if_pos hcond]
              constructor
              · intro hcontra
                exact absurd hcontra (by simp)
              · rintro ⟨hacc | hacc | ⟨_, s, hs, hport⟩, _⟩
                · exact absurd hacc h104
                · omega
                · rw [harg] at hs
                  simp only [Option.some.injEq] at hs
                  subst hs
                  obtain ⟨h1, h2, h3⟩ := (portAccepted_iff optarg).2 hport
                  rcases hcond with hc | hc | hc
                  · exact absurd h1 hc
                  · omega
                  · omega
            · simp only [if_neg hcond]
              rw [ih]
              have hacc : portAccepted optarg := by
                unfold portAccepted
                simp only [ne_eq, not_or, not_not, not_le, not_lt] at hcond
                exact ⟨hcond.1, hcond.2.1, hcond.2.2⟩
              exact ⟨fun h => ⟨Or.inr (Or.inr ⟨h112, optarg, harg, (portAccepted_iff _).1 hacc⟩),
                h⟩, fun h => h.2⟩
        · simp only [if_neg h112]
          by_cases h118 : r.opt = 118
          · simp only [if_pos h118]
            rw [ih]
            exact ⟨fun h => ⟨Or.inr (Or.inl h118), h⟩, fun h => h.2⟩
          · simp only [if_neg h118]
            constructor
            · intro hcontra
              exact absurd hcontra (by simp)
            · rintro ⟨hacc | hacc | ⟨hacc, _⟩, _⟩
              · exact absurd hacc h104
              · exact absurd hacc h118
              · exact absurd hacc h112

/-! ### `tcp_client_parse_arguments` as `main` calls it -/

/-- What a successful parse says about the command line and the `Config`. -/
theorem parse_success (argv : List CStr) (config : Config) (v : Bool)
    (h : tcp_client_parse_arguments argv initialConfig =
      ParseOutcome.returned EXIT_SUCCESS config v) :
    (∀ r ∈ (commandLine argv).returns, r.opt = 112 → ∃ s, r.optarg = some s ∧ portAccepted s) ∧
    (∃ a m, (commandLine argv).operands = [a, m] ∧ a ∈ validActions ∧
      config.action = some a ∧ config.message = some m) ∧
    (config.port = some TCP_CLIENT_DEFAULT_PORT ∨ ∃ s, config.port = some s ∧ portAccepted s) := by
  unfold tcp_client_parse_arguments at h
  obtain ⟨hports, c1, v1, hc, ha, hm, hp⟩ := optionLoop_success _ _ _ _ _ _ h
  obtain ⟨a, m, hops, hmem, hact, hmsg, hport⟩ :=
    collectOperands_success _ c1 config v1 v (by rw [ha]; rfl) (by rw [hm]; rfl) hc
  refine ⟨hports, ⟨a, m, hops, hmem, hact, hmsg⟩, ?_⟩
  rw [hport]
  rcases hp with hp | hp
  · exact Or.inl (by rw [hp]; rfl)
  · exact Or.inr hp

/-- The parse ends in the exit after `--help`, which takes a `--help` among
the options, or in a return of `EXIT_SUCCESS` or `EXIT_FAILURE`; its behaviour
is never undefined. -/
theorem parse_outcome (argv : List CStr) :
    (tcp_client_parse_arguments argv initialConfig = ParseOutcome.exitHelp ∧
      ∃ r ∈ (commandLine argv).returns, r.opt = 0) ∨
    ∃ ret config v, tcp_client_parse_arguments argv initialConfig =
      ParseOutcome.returned ret config v ∧ (ret = EXIT_SUCCESS ∨ ret = EXIT_FAILURE) :=
  optionLoop_outcome _ _ _ _ (getoptScan_optarg _ _)

/-- When the parse does not return `EXIT_SUCCESS`, `main` exits having printed
the help text and nothing else: no socket is opened and no connection is
attempted. -/
theorem main_rejected (net : Net) (fuel : Nat) (stack : Nat → Nat) (argv : List CStr)
    (h : ∀ config v, tcp_client_parse_arguments argv initialConfig ≠
      ParseOutcome.returned EXIT_SUCCESS config v) :
    ∃ run, main net fuel stack argv = Exec.done run ∧ run.trace = [Event.usage] := by
  rcases parse_outcome argv with ⟨hp, _⟩ | ⟨ret, config, v, hp, hret | hret⟩
  · exact ⟨⟨EXIT_SUCCESS, [Event.usage]⟩, by simp only [main, hp], rfl⟩
  · subst hret
    exact absurd hp (h config v)
  · subst hret
    refine ⟨⟨EXIT_FAILURE, [Event.usage]⟩, ?_, rfl⟩
    simp [main, hp, EXIT_FAILURE]

/-- The parse ends in the exit after `--help` exactly when `--help` is reached
before any rejected option. -/
theorem parse_exitHelp_iff (argv : List CStr) :
    tcp_client_parse_arguments argv initialConfig = ParseOutcome.exitHelp ↔
      HelpReachedFirst (commandLine argv).returns :=
  optionLoop_exitHelp_iff _ _ _ _

/-- A command line on which the parse cannot return success: the parse returns
failure and `main` exits with `EXIT_FAILURE`, or, when `--help` is reached
before every rejected option, the parser ends the process with `EXIT_SUCCESS`;
either way `main` has printed only the help text. -/
theorem rejected_command_line (argv : List CStr)
    (hno : ∀ config v, tcp_client_parse_arguments argv initialConfig ≠
      ParseOutcome.returned EXIT_SUCCESS config v) :
    (¬ HelpReachedFirst (commandLine argv).returns →
      (∃ config v, tcp_client_parse_arguments argv initialConfig =
        ParseOutcome.returned EXIT_FAILURE config v) ∧
      ∀ net fuel stack, main net fuel stack argv =
        Exec.done ⟨EXIT_FAILURE, [Event.usage]⟩) ∧
    (HelpReachedFirst (commandLine argv).returns →
      tcp_client_parse_arguments argv initialConfig = ParseOutcome.exitHelp ∧
      ∀ net fuel stack, main net fuel stack argv =
        Exec.done ⟨EXIT_SUCCESS, [Event.usage]⟩) ∧
    ∀ net fuel stack, ∃ run, main net fuel stack argv = Exec.done run ∧
      run.trace = [Event.usage] ∧ ∀ e ∈ run.trace, e.isConnect = false := by
  refine ⟨?_, ?_, ?_⟩
  · intro hnot
    rcases parse_outcome argv with ⟨hp, _⟩ | ⟨ret, config, v, hp, hret | hret⟩
    · exact absurd ((parse_exitHelp_iff argv).1 hp) hnot
    · subst hret
      exact absurd hp (hno config v)
    · subst hret
      refine ⟨⟨config, v, hp⟩, ?_⟩
      intro net fuel stack
      simp [main, hp, EXIT_FAILURE]
  · intro hhelp
    have hp := (parse_exitHelp_iff argv).2 hhelp
    refine ⟨hp, ?_⟩
    intro net fuel stack
    simp only [main, hp]
  · intro net fuel stack
    obtain ⟨run, hrun, htrace⟩ := main_rejected net fuel stack argv hno
    refine ⟨run, hrun, htrace, ?_⟩
    rw [htrace]
    simp [Event.isConnect]

theorem atoi_of_accepted (s : CStr) (h : portAccepted s) : 1 ≤ atoi s ∧ atoi s ≤ 65535 := by
  obtain ⟨_, h1, h2⟩ := h
  unfold atoi
  norm_num
  omega

theorem default_port_accepted : portAccepted TCP_CLIENT_DEFAULT_PORT := by
  unfold portAccepted
  decide

set_option maxRecDepth 1000000 in
/-- C8 (fails on the code): `tcp_client_parse_arguments` checks no length. It
accepts `tcp_client uppercase m` for a message `m` of 1009 bytes, itself
shorter than `TCP_CLIENT_MAX_INPUT_SIZE`; the request then has 1024 bytes, so
with its NUL it does not fit `payload[1024]`, `sprintf` writes past the buffer
and the behaviour of `main` is undefined. -/
theorem long_message_overflows_payload :
    tcp_client_parse_arguments longArgv initialConfig =
        ParseOutcome.returned EXIT_SUCCESS longConfig false ∧
      (List.replicate 1009 97).length < TCP_CLIENT_MAX_INPUT_SIZE ∧
      (formatText (cstr "%s %ld %s") [FmtArg.str longConfig.action, FmtArg.size 1009, FmtArg.str longConfig.message]).map List.length = some 1024 ∧
      buildPayload longConfig = Exec.undefined ∧
      main fillingNet 2000 (fun _ => 0) longArgv = Exec.undefined := by
  decide

/-- C9 (fails as stated): the port arguments ` 80` (with a leading space) and
`+80` are not decimal integers, yet `tcp_client_parse_arguments` accepts
`-p " 80"` and `-p +80` and stores them as the port. -/
theorem port_not_plain_decimal_accepted :
    ¬ IsDecimalPort (cstr " 80") ∧
      tcp_client_parse_arguments (portArgv (cstr " 80")) initialConfig =
        ParseOutcome.returned EXIT_SUCCESS (portConfig (cstr " 80")) false ∧
      ¬ IsDecimalPort (cstr "+80") ∧
      tcp_client_parse_arguments (portArgv (cstr "+80")) initialConfig =
        ParseOutcome.returned EXIT_SUCCESS (portConfig (cstr "+80")) false := by
  unfold IsDecimalPort
  decide

/-- C9 (amended): a parse that returns success has found, in every argument of
`-p`/`--port`, a decimal integer in `[1, 65535]` that may be preceded by white
space and one `+`, and the configured port denotes (for `atoi`) an integer in
`[1, 65535]`. For a `-p`/`--port` argument not of that form the parse returns
failure and `main` exits with `EXIT_FAILURE`, except when a `--help` is reached
before every rejected option: then the parser ends the process with
`EXIT_SUCCESS`. In both cases `main` has printed only the help text: no socket
was opened and no connection attempted. -/
theorem port_validated (argv : List CStr) :
    (∀ config v, tcp_client_parse_arguments argv initialConfig =
        ParseOutcome.returned EXIT_SUCCESS config v →
      (∀ r ∈ (commandLine argv).returns, r.opt = 112 →
        ∃ s, r.optarg = some s ∧ IsSignedDecimalPort s) ∧
      ∃ p, config.port = some p ∧ 1 ≤ atoi p ∧ atoi p ≤ 65535) ∧
    (∀ r ∈ (commandLine argv).returns, ∀ s, r.opt = 112 → r.optarg = some s →
      ¬ IsSignedDecimalPort s →
      (¬ HelpReachedFirst (commandLine argv).returns →
        (∃ config v, tcp_client_parse_arguments argv initialConfig =
          ParseOutcome.returned EXIT_FAILURE config v) ∧
        ∀ net fuel stack, main net fuel stack argv =
          Exec.done ⟨EXIT_FAILURE, [Event.usage]⟩) ∧
      (HelpReachedFirst (commandLine argv).returns →
        tcp_client_parse_arguments argv initialConfig = ParseOutcome.exitHelp ∧
        ∀ net fuel stack, main net fuel stack argv =
          Exec.done ⟨EXIT_SUCCESS, [Event.usage]⟩) ∧
      ∀ net fuel stack, ∃ run, main net fuel stack argv = Exec.done run ∧
        run.trace = [Event.usage] ∧ ∀ e ∈ run.trace, e.isConnect = false) := by
  constructor
  · intro config v h
    obtain ⟨hports, _, hport⟩ := parse_success argv config v h
    constructor
    · intro r hr hopt
      obtain ⟨s, hs, hacc⟩ := hports r hr hopt
      exact ⟨s, hs, (portAccepted_iff s).1 hacc⟩
    · rcases hport with hp | ⟨s, hp, hacc⟩
      · exact ⟨_, hp, atoi_of_accepted _ default_port_accepted⟩
      · exact ⟨s, hp, atoi_of_accepted s hacc⟩
  · intro r hr s hopt harg hbad
    have hno : ∀ config v, tcp_client_parse_arguments argv initialConfig ≠
        ParseOutcome.returned EXIT_SUCCESS config v := by
      intro config v h
      obtain ⟨s', hs', hacc⟩ := (parse_success argv config v h).1 r hr hopt
      rw [harg] at hs'
      simp only [Option.some.injEq] at hs'
      subst hs'
      exact hbad ((portAccepted_iff s).1 hacc)
    exact rejected_command_line argv hno

/-- C10 (fails as stated): on `tcp_client --help capitalize hello` the ACTION
operand is `capitalize`, yet `tcp_client_parse_arguments` does not return
failure: `getopt_long` yields `--help` first and the parser ends the process
with `EXIT_SUCCESS`. -/
theorem help_precedes_action_check :
    (commandLine helpArgv).operands = [cstr "capitalize", cstr "hello"] ∧
      cstr "capitalize" ∉ validActions ∧
      tcp_client_parse_arguments helpArgv initialConfig = ParseOutcome.exitHelp ∧
      (∀ config v, tcp_client_parse_arguments helpArgv initialConfig ≠
        ParseOutcome.returned EXIT_FAILURE config v) ∧
      main helloNet 17 (fun _ => 0) helpArgv = Exec.done ⟨EXIT_SUCCESS, [Event.usage]⟩ := by
  have h : tcp_client_parse_arguments helpArgv initialConfig = ParseOutcome.exitHelp := by
    decide
  refine ⟨by decide, by decide, h, ?_, by decide⟩
  intro config v
  rw [h]
  simp

/-- C10 (amended): `tcp_client_parse_arguments` returns success only if there are
exactly two operands, ACTION and MESSAGE, and ACTION is one of `uppercase`,
`lowercase`, `reverse`, `shuffle`, `random`, compared as whole strings. When
the first operand is any other string the parse returns failure and `main`
exits with `EXIT_FAILURE`, except when a `--help` is reached before every
rejected option: then the parser ends the process with `EXIT_SUCCESS`. In both
cases `main` has printed only the help text, without any connection attempt. -/
theorem action_validated (argv : List CStr) :
    (∀ config v, tcp_client_parse_arguments argv initialConfig =
        ParseOutcome.returned EXIT_SUCCESS config v →
      ∃ a m, (commandLine argv).operands = [a, m] ∧
        a ∈ [cstr "uppercase", cstr "lowercase", cstr "reverse", cstr "shuffle", cstr "random"] ∧
        config.action = some a ∧ config.message = some m) ∧
    (∀ a rest, (commandLine argv).operands = a :: rest →
      a ∉ [cstr "uppercase", cstr "lowercase", cstr "reverse", cstr "shuffle", cstr "random"] →
      (¬ HelpReachedFirst (commandLine argv).returns →
        (∃ config v, tcp_client_parse_arguments argv initialConfig =
          ParseOutcome.returned EXIT_FAILURE config v) ∧
        ∀ net fuel stack, main net fuel stack argv =
          Exec.done ⟨EXIT_FAILURE, [Event.usage]⟩) ∧
      (HelpReachedFirst (commandLine argv).returns →
        tcp_client_parse_arguments argv initialConfig = ParseOutcome.exitHelp ∧
        ∀ net fuel stack, main net fuel stack argv =
          Exec.done ⟨EXIT_SUCCESS, [Event.usage]⟩) ∧
      ∀ net fuel stack, ∃ run, main net fuel stack argv = Exec.done run ∧
        run.trace = [Event.usage] ∧ ∀ e ∈ run.trace, e.isConnect = false) := by
  constructor
  · intro config v h
    exact (parse_success argv config v h).2.1
  · intro a rest hops hbad
    have hno : ∀ config v, tcp_client_parse_arguments argv initialConfig ≠
        ParseOutcome.returned EXIT_SUCCESS config v := by
      intro config v h
      obtain ⟨a', m, hops', hmem, _, _⟩ := (parse_success argv config v h).2.1
      rw [hops] at hops'
      simp only [List.cons.injEq] at hops'
      obtain ⟨rfl, _⟩ := hops'
      exact hbad hmem
    exact rejected_command_line argv hno

/-- On `tcp_client -x --help capitalize hello` the `--help` comes after the
rejected option `-x`, and `action_validated` gives the return of failure. -/
theorem action_validated_witness :
    ¬ HelpReachedFirst (commandLine badOptionHelpArgv).returns ∧
      (∃ config v, tcp_client_parse_arguments badOptionHelpArgv initialConfig =
        ParseOutcome.returned EXIT_FAILURE config v) ∧
      ∀ net fuel stack, main net fuel stack badOptionHelpArgv =
        Exec.done ⟨EXIT_FAILURE, [Event.usage]⟩ :=
  have hnot : ¬ HelpReachedFirst (commandLine badOptionHelpArgv).returns := fun h =>
    absurd ((parse_exitHelp_iff badOptionHelpArgv).2 h) (by decide)
  ⟨hnot, ((action_validated badOptionHelpArgv).2 (cstr "capitalize") [cstr "hello"] (by decide)
    (by decide)).1 hnot⟩

/-- On `tcp_client -p 0 --help uppercase hello` the `--help` comes after the
rejected port, and `port_validated` gives the return of failure. -/
theorem port_validated_witness :
    ¬ HelpReachedFirst (commandLine portHelpArgv).returns ∧
      (∃ config v, tcp_client_parse_arguments portHelpArgv initialConfig =
        ParseOutcome.returned EXIT_FAILURE config v) ∧
      ∀ net fuel stack, main net fuel stack portHelpArgv =
        Exec.done ⟨EXIT_FAILURE, [Event.usage]⟩ :=
  have hbad : ¬ IsSignedDecimalPort (cstr "0") := fun h =>
    absurd ((portAccepted_iff _).2 h) (by unfold portAccepted; decide)
  have hnot : ¬ HelpReachedFirst (commandLine portHelpArgv).returns := fun h =>
    absurd ((parse_exitHelp_iff portHelpArgv).2 h) (by decide)
  ⟨hnot, ((port_validated portHelpArgv).2 ⟨112, some (cstr "0")⟩ (by decide)
    (cstr "0") rfl rfl hbad).1 hnot⟩

/-! ### The runs of `main` -/

/-- The run of `main` finishes only if its send and receive steps return: the
hypothesis of `main_finishes` is necessary. -/
theorem stepsReturn_of_finished (net : Net) (fuel : Nat) (stack : Nat → Nat)
    (argv : List CStr) (run : Run) (h : main net fuel stack argv = Exec.done run) :
    StepsReturn net fuel stack argv := by
  intro config' v' sockfd' calls' hp' hc' hbad'
  rcases main_cases net fuel stack argv run h with ⟨hp, _⟩ | ⟨ret, config, v, hp, hret, _⟩ |
    ⟨config, v, calls, hp, hc, _⟩ | ⟨config, v, sockfd, calls, srun, hp, hc, hbad, hs, _⟩
  · rw [hp] at hp'
    exact absurd hp' (by simp)
  · rw [hp] at hp'
    simp only [ParseOutcome.returned.injEq] at hp'
    exact absurd hp'.1 hret
  · rw [hp] at hp'
    simp only [ParseOutcome.returned.injEq] at hp'
    obtain ⟨_, rfl, _⟩ := hp'
    rw [hc] at hc'
    simp only [Exec.done.injEq, Prod.mk.injEq] at hc'
    exact absurd hc'.1.symm hbad'
  · rw [hp] at hp'
    simp only [ParseOutcome.returned.injEq] at hp'
    obtain ⟨_, rfl, _⟩ := hp'
    rcases session_cases net fuel config sockfd _ srun hs with ⟨s, sst, hsend, hs0, _⟩ |
      ⟨sst, r, rst, hsend, hrecv, _, _⟩ | ⟨sst, rst, hsend, hrecv, _, _⟩ |
      ⟨sst, rst, hsend, hrecv, _, _⟩
    · exact ⟨s, sst, hsend, fun h0 => absurd h0 hs0⟩
    · exact ⟨0, sst, hsend, fun _ => ⟨r, rst, hrecv⟩⟩
    · exact ⟨0, sst, hsend, fun _ => ⟨0, rst, hrecv⟩⟩
    · exact ⟨0, sst, hsend, fun _ => ⟨0, rst, hrecv⟩⟩

set_option maxRecDepth 100000 in
/-- A refused connection: `main` exits with failure after the connect attempt,
without send, receive, print or close. -/
theorem main_connect_refused : main refusingNet 17 (fun _ => 0) helloArgv =
    Exec.done ⟨EXIT_FAILURE, helloConnectCalls ++ [Event.connectReturned (-1)]⟩ := by
  decide

set_option maxRecDepth 100000 in
/-- A failing `send`: `main` closes the socket and exits with failure. -/
theorem main_send_fails : main brokenSendNet 17 (fun _ => 0) helloArgv =
    Exec.done ⟨EXIT_FAILURE, helloConnectCalls ++ [Event.connectReturned 3, Event.sendReturned 3 1, Event.closeReturned 3 0]⟩ := by
  decide

set_option maxRecDepth 100000 in
/-- A failing `recv`: `main` closes the socket and exits with failure, printing nothing. -/
theorem main_receive_fails : main brokenRecvNet 17 (fun _ => 0) helloArgv =
    Exec.done ⟨EXIT_FAILURE, helloConnectCalls ++ [Event.connectReturned 3, Event.sendReturned 3 0, Event.receiveReturned 3 1, Event.closeReturned 3 0]⟩ := by
  decide

set_option maxRecDepth 100000 in
/-- A failing `close`: `main` has printed the response and exits with failure. -/
theorem main_close_fails : main brokenCloseNet 17 (fun _ => 0) helloArgv =
    Exec.done ⟨EXIT_FAILURE, helloConnectCalls ++ [Event.connectReturned 3, Event.sendReturned 3 0, Event.receiveReturned 3 0, Event.printed (cstr "HELLO\n"), Event.closeReturned 3 1]⟩ := by
  decide

end TcpClient
